import Mathlib

/-!
Verification of the Lect_Notes lecture-notes-to-web-story pipeline.

The repository consists of two Streamlit variants, `app.py` and
`app-single.py`, sharing the same pipeline shape: OCR text extraction,
GPT story generation, SEO metadata generation, DALL-E image generation
with S3 upload, Azure TTS narration with S3 upload, and HTML template
filling.  This development gives a shallow embedding of the pure data
manipulation of that pipeline: the Story Record is an insertion-ordered
association list of string fields (a Python `dict` whose values are the
strings produced by the pipeline), external services (GPT, DALL-E,
`requests`, PIL decoding, S3, TTS) are environments of explicitly
fallible operations, and Python library primitives used by the code
(`str.replace`, `str.strip`, `str.lower`, `re.search` for the one fixed
pattern used, `json.loads`, `dict.update`, `dict[...]`, `dict.get`) are
modelled faithfully on `List Char` / `String`.
-/

set_option maxHeartbeats 1000000

namespace LectNotes

/-- A Python exception, as far as the modelled fragment distinguishes them:
a `KeyError` carrying the missing key (raised by `dict[...]`), or any other
exception rendered by its message (network errors, decode errors, S3 errors,
speech errors, `NameError`, ...). -/
inductive PyErr where
  | keyError (k : String)
  | exn (msg : String)
deriving DecidableEq, Repr

/-- Rendering of an exception as Python's `f"...: {e}"` interpolation would
show it (the exact text only matters for the shape of user-visible error
messages). -/
def renderErr : PyErr → String
  | PyErr.keyError k => "'" ++ k ++ "'"
  | PyErr.exn m => m

/-- The Story Record: a Python `dict` with string keys and string values,
in insertion order.  All fields the pipeline reads and writes are strings. -/
abbrev Story : Type := List (String × String)

/-- Key lookup, Python `d.get(k)` / `k in d`: the value of the first (and in
a real dict, only) entry with the given key. -/
def lookupKey (s : Story) (k : String) : Option String :=
  match s with
  | [] => none
  | (k', v) :: rest => if k' = k then some v else lookupKey rest k

/-- The key set (in insertion order) of a record. -/
def keysOf (s : Story) : List String :=
  match s with
  | [] => []
  | (k, _) :: rest => k :: keysOf rest

/-- Python `d[k] = v`: overwrite the first entry with key `k` in place,
keeping its position, or append a new entry if the key is absent. -/
def setKey (s : Story) (k v : String) : Story :=
  match s with
  | [] => [(k, v)]
  | (k', v') :: rest => if k' = k then (k, v) :: rest else (k', v') :: setKey rest k v

/-- Python `d.update(other)`: assign every entry of `other`, in order, into `d`. -/
def dictUpdate (s other : Story) : Story :=
  other.foldl (fun st p => setKey st p.1 p.2) s

/-- Python `d[k]` as an expression: the value, or a raised `KeyError`. -/
def dictGetE (s : Story) (k : String) : Except PyErr String :=
  match lookupKey s k with
  | some v => Except.ok v
  | none => Except.error (PyErr.keyError k)

/-! ### Python `str.replace`

`str.replace(old, new)` replaces every non-overlapping occurrence of `old`,
scanning left to right, by `new`.  The scan is modelled on `List Char` with
an explicit fuel argument (always called with fuel = length of the string)
so that the function is structurally recursive and computable by `decide`. -/

/-- Fuel-indexed scan for `str.replace` with a nonempty pattern: at each
position, if the pattern is a prefix, emit the replacement and continue
after the matched occurrence; otherwise keep the character. -/
def pyReplaceAux (pat v : List Char) : Nat → List Char → List Char
  | _, [] => []
  | 0, s => s
  | n + 1, c :: s =>
    if pat <+: (c :: s) then v ++ pyReplaceAux pat v n ((c :: s).drop pat.length)
    else c :: pyReplaceAux pat v n s

/-- Python `s.replace(pat, v)` on `List Char`.  An empty pattern (never used
by this repository, whose patterns all contain braces or punctuation)
interleaves the replacement around every character, as CPython does. -/
def pyReplace (s pat v : List Char) : List Char :=
  match pat with
  | [] => v ++ s.foldr (fun c acc => c :: (v ++ acc)) []
  | _ :: _ => pyReplaceAux pat v s.length s

/-- Python `str.lower` on the ASCII range (the titles this repository
slugifies; CPython additionally lowercases non-ASCII letters). -/
def pyLowerChar (c : Char) : Char :=
  if 'A' ≤ c ∧ c ≤ 'Z' then Char.ofNat (c.toNat + 32) else c

/-- Slug derivation of `app.py` (`generate_images`, line 100):
`story['storytitle'].lower().replace(' ', '-')`. -/
def slugApp (title : String) : String :=
  ⟨pyReplace (title.data.map pyLowerChar) [' '] ['-']⟩

/-- Slug derivation of `app-single.py` (`generate_images_and_upload`, line 95):
`data["storytitle"].lower().replace(" ", "-").replace(":", "")`. -/
def slugAppSingle (title : String) : String :=
  ⟨pyReplace (pyReplace (title.data.map pyLowerChar) [' '] ['-']) [':'] []⟩

/-! ### `fill_template`

`fill_template` iterates over the record entries in insertion order and
performs `template = template.replace(f"{{{{{k}}}}}", v)` for each — a
sequence of global string replacements, not a single simultaneous
substitution. -/

/-- The placeholder text of a field, Python `f"{{{{{k}}}}}"`,
i.e. `"{{" + k + "}}"`. -/
def placeholder (k : List Char) : List Char :=
  '{' :: '{' :: (k ++ ['}', '}'])

/-- `fill_template` of `app.py` (lines 155-158) and `app-single.py`
(lines 145-148), on character lists. -/
def fillTemplateCore (template : List Char) (story : List (List Char × List Char)) :
    List Char :=
  story.foldl (fun tm p => pyReplace tm (placeholder p.1) p.2) template

/-- `fill_template` on strings. -/
def fill_template (template : String) (story : List (String × String)) : String :=
  ⟨fillTemplateCore template.data (story.map (fun p => (p.1.data, p.2.data)))⟩

/-- Absence of both brace characters. -/
def braceFree (s : List Char) : Prop := ∀ c ∈ s, c ≠ '{' ∧ c ≠ '}'

instance : DecidablePred braceFree := fun s =>
  inferInstanceAs (Decidable (∀ c ∈ s, c ≠ '{' ∧ c ≠ '}'))

/-- A token of a well-formed template: a literal run of text or a
placeholder `{{name}}`. -/
inductive Tok where
  | lit (s : List Char)
  | ph (name : List Char)

/-- The text of a token. -/
def Tok.render : Tok → List Char
  | Tok.lit s => s
  | Tok.ph n => placeholder n

/-- The text of a token list. -/
def renderToks : List Tok → List Char
  | [] => []
  | t :: ts => t.render ++ renderToks ts

/-- Well-formedness of a token: its literal text or its placeholder name is
brace-free. -/
def TokOK : Tok → Prop
  | Tok.lit s => braceFree s
  | Tok.ph n => braceFree n

instance : DecidablePred TokOK := fun t =>
  match t with
  | Tok.lit s => inferInstanceAs (Decidable (braceFree s))
  | Tok.ph n => inferInstanceAs (Decidable (braceFree n))

/-- The effect of one `template.replace(f"{{{{{k}}}}}", v)` pass on a
well-formed token: the placeholder of `k` becomes the literal `v`. -/
def substOne (k v : List Char) : Tok → Tok
  | Tok.lit s => Tok.lit s
  | Tok.ph n => if n = k then Tok.lit v else Tok.ph n

/-- Simultaneous substitution of a whole record on a token: a placeholder
of a present field (first binding) becomes its value, anything else is
unchanged. -/
def substAll (story : List (List Char × List Char)) : Tok → Tok
  | Tok.lit s => Tok.lit s
  | Tok.ph n =>
    match story.find? (fun p => p.1 == n) with
    | some p => Tok.lit p.2
    | none => Tok.ph n

/-- Modelled from the spec: the claimed behaviour of template filling as a
single left-to-right pass — at each position, if the text starts with the
placeholder of a field of the record (first binding wins), that one
occurrence is replaced by the field's value and scanning resumes after it,
never rescanning the inserted value; all other text is copied unchanged.
The fuel is the input length (every step consumes at least one
character). -/
def substSpecAux : Nat → List (List Char × List Char) → List Char → List Char
  | _, _, [] => []
  | 0, _, s => s
  | fuel + 1, story, c :: s =>
    match story.find? (fun p => (placeholder p.1).isPrefixOf (c :: s)) with
    | some p => p.2 ++ substSpecAux fuel story ((c :: s).drop (placeholder p.1).length)
    | none => c :: substSpecAux fuel story s

/-- Modelled from the spec: simultaneous one-pass placeholder
substitution. -/
def fillTemplateSpec (story : List (List Char × List Char)) (template : List Char) :
    List Char :=
  substSpecAux template.length story template

/-! ### Python `str.strip` and the SEO fence search -/

/-- Whitespace removed by Python `str.strip()` (the ASCII part; the inputs
this repository strips are ASCII-spaced model responses). -/
def isPySpace (c : Char) : Bool :=
  c == ' ' || c == '\t' || c == '\n' || c == '\r' || c == '\x0b' || c == '\x0c'

/-- Python `s.strip()`: remove leading and trailing whitespace. -/
def pyStrip (s : List Char) : List Char :=
  ((s.dropWhile isPySpace).reverse.dropWhile isPySpace).reverse

/-- Scan for the closing fence of the lazy group `(.*?)` in
`r"```json(.*?)```"`: split the input at the first occurrence of "```",
returning the text before it and the text after it. -/
def findClose : List Char → Option (List Char × List Char)
  | [] => none
  | c :: s =>
    if "```".data <+: (c :: s) then some ([], (c :: s).drop 3)
    else
      match findClose s with
      | some (a, b) => some (c :: a, b)
      | none => none

/-- Model of `re.search(r"```json(.*?)```", content, re.S)`: the engine tries
start positions left to right; where the literal "```json" matches, the lazy
dot-all group extends to the first following "```"; if no closing fence
follows that start, the engine moves on to the next start position.  The
result is `group(1)` of the leftmost match, if any. -/
def fencedSearch : List Char → Option (List Char)
  | [] => none
  | c :: s =>
    if "```json".data <+: (c :: s) then
      match findClose ((c :: s).drop 7) with
      | some (g, _) => some g
      | none => fencedSearch s
    else fencedSearch s

/-! ### A model of `json.loads`

`generate_seo` feeds the extracted text to `json.loads` and falls back to a
default record on `json.JSONDecodeError`.  The parser below follows the
strict-mode CPython decoder: one document, optionally surrounded by
whitespace; objects, arrays, strings with escapes, numbers by the decoder's
number grammar, `true`/`false`/`null` and the CPython-accepted constants
`NaN`/`Infinity`/`-Infinity`. -/

/-- A parsed JSON value.  Numbers keep their lexeme (the pipeline never
computes with them); objects keep entries in first-insertion order with a
later duplicate key overwriting the value in place, as a Python dict does. -/
inductive Json where
  | null
  | bool (b : Bool)
  | num (lexeme : String)
  | str (s : String)
  | arr (elems : List Json)
  | obj (entries : List (String × Json))

/-- Whitespace skipped between tokens by `json.loads`. -/
def isJsonWs (c : Char) : Bool :=
  c == ' ' || c == '\t' || c == '\n' || c == '\r'

/-- Value of a hexadecimal digit. -/
def hexVal (c : Char) : Option Nat :=
  if '0' ≤ c ∧ c ≤ '9' then some (c.toNat - 48)
  else if 'a' ≤ c ∧ c ≤ 'f' then some (c.toNat - 87)
  else if 'A' ≤ c ∧ c ≤ 'F' then some (c.toNat - 55)
  else none

/-- Parse the body of a JSON string after the opening quote, returning the
decoded characters and the rest of the input after the closing quote.
Strict mode, as `json.loads` uses: raw control characters are rejected;
`\uXXXX` escapes combine surrogate pairs, and a lone surrogate (which
CPython keeps as a lone surrogate code unit, unrepresentable in a Lean
`Char`) decodes to U+FFFD. -/
def parseJStringBody : Nat → List Char → Option (List Char × List Char)
  | 0, _ => none
  | _ + 1, [] => none
  | _ + 1, '"' :: rest => some ([], rest)
  | fuel + 1, '\\' :: 'u' :: a :: b :: c :: d :: rest =>
    match hexVal a, hexVal b, hexVal c, hexVal d with
    | some ha, some hb, some hc, some hd =>
      let n := ((ha * 16 + hb) * 16 + hc) * 16 + hd
      if 0xD800 ≤ n ∧ n ≤ 0xDBFF then
        match rest with
        | '\\' :: 'u' :: e :: f :: g :: h :: rest2 =>
          match hexVal e, hexVal f, hexVal g, hexVal h with
          | some he, some hf, some hg, some hh =>
            let m := ((he * 16 + hf) * 16 + hg) * 16 + hh
            if 0xDC00 ≤ m ∧ m ≤ 0xDFFF then
              match parseJStringBody fuel rest2 with
              | some (cs, r) =>
                some (Char.ofNat (0x10000 + (n - 0xD800) * 0x400 + (m - 0xDC00)) :: cs, r)
              | none => none
            else
              match parseJStringBody fuel rest with
              | some (cs, r) => some ('�' :: cs, r)
              | none => none
          | _, _, _, _ =>
            match parseJStringBody fuel rest with
            | some (cs, r) => some ('�' :: cs, r)
            | none => none
        | _ =>
          match parseJStringBody fuel rest with
          | some (cs, r) => some ('�' :: cs, r)
          | none => none
      else if 0xDC00 ≤ n ∧ n ≤ 0xDFFF then
        match parseJStringBody fuel rest with
        | some (cs, r) => some ('�' :: cs, r)
        | none => none
      else
        match parseJStringBody fuel rest with
        | some (cs, r) => some (Char.ofNat n :: cs, r)
        | none => none
    | _, _, _, _ => none
  | fuel + 1, '\\' :: e :: rest =>
    match (match e with
      | '"' => some '"'
      | '\\' => some '\\'
      | '/' => some '/'
      | 'b' => some (Char.ofNat 8)
      | 'f' => some (Char.ofNat 12)
      | 'n' => some '\n'
      | 'r' => some '\r'
      | 't' => some '\t'
      | _ => none) with
    | some dec =>
      match parseJStringBody fuel rest with
      | some (cs, r) => some (dec :: cs, r)
      | none => none
    | none => none
  | fuel + 1, c :: rest =>
    if c.toNat < 0x20 then none
    else
      match parseJStringBody fuel rest with
      | some (cs, r) => some (c :: cs, r)
      | none => none

/-- Parse a JSON string body with adequate fuel (each step consumes at
least one character). -/
def parseJString (s : List Char) : Option (List Char × List Char) :=
  parseJStringBody (s.length + 1) s

/-- Longest digit run at the head of the input, and the rest. -/
def digitSpan (s : List Char) : List Char × List Char :=
  (s.takeWhile Char.isDigit, s.dropWhile Char.isDigit)

/-- Optional fraction part `(\.[0-9]+)` of the decoder's number grammar. -/
def parseJFrac (s : List Char) : Option (List Char × List Char) :=
  match s with
  | '.' :: r =>
    let (ds, r2) := digitSpan r
    if ds = [] then none else some ('.' :: ds, r2)
  | _ => some ([], s)

/-- Optional exponent part `([eE][+-]?[0-9]+)` of the number grammar. -/
def parseJExp (s : List Char) : Option (List Char × List Char) :=
  match s with
  | e :: r =>
    if e = 'e' ∨ e = 'E' then
      let (sgn, r1) := match r with
        | '+' :: r' => ((['+'] : List Char), r')
        | '-' :: r' => ((['-'] : List Char), r')
        | _ => (([] : List Char), r)
      let (ds, r2) := digitSpan r1
      if ds = [] then none else some (e :: (sgn ++ ds), r2)
    else some ([], s)
  | [] => some ([], [])

/-- Parse a JSON number at the head of the input by the decoder's grammar
`-? (0 | [1-9][0-9]*) (\.[0-9]+)? ([eE][+-]?[0-9]+)?`, returning its
lexeme. -/
def parseJNumber (s : List Char) : Option (List Char × List Char) :=
  let (neg, s1) := match s with
    | '-' :: r => ((['-'] : List Char), r)
    | _ => (([] : List Char), s)
  match s1 with
  | c :: r =>
    if c = '0' then
      match parseJFrac r with
      | some (fr, r2) =>
        match parseJExp r2 with
        | some (ex, r3) => some (neg ++ '0' :: (fr ++ ex), r3)
        | none => none
      | none => none
    else if c.isDigit then
      let (ds, r1) := digitSpan r
      match parseJFrac r1 with
      | some (fr, r2) =>
        match parseJExp r2 with
        | some (ex, r3) => some (neg ++ c :: (ds ++ fr ++ ex), r3)
        | none => none
      | none => none
    else none
  | [] => none

/-- Assignment into the entry list of a JSON object under construction:
a duplicate key overwrites in place, as a Python dict does. -/
def jsonObjSet (entries : List (String × Json)) (k : String) (v : Json) :
    List (String × Json) :=
  match entries with
  | [] => [(k, v)]
  | (k', v') :: rest => if k' = k then (k, v) :: rest else (k', v') :: jsonObjSet rest k v

/-- A pending composite value during JSON parsing: an array with the
elements parsed so far, or an object with the entries parsed so far and the
key whose value is being parsed. -/
inductive JFrame where
  | arrF (acc : List Json)
  | objF (acc : List (String × Json)) (key : String)

/-- What the parser does next: parse a value from the input, or deliver a
finished value to the innermost pending composite. -/
inductive JTask where
  | parse (s : List Char)
  | ret (v : Json) (s : List Char)

/-- One-token-at-a-time JSON parsing loop.  The fuel only bounds the number
of steps; each step consumes input, so `length + 2` fuel always suffices. -/
def jsonStep : Nat → List JFrame → JTask → Option Json
  | 0, _, _ => none
  | fuel + 1, stack, JTask.parse s =>
    match s.dropWhile isJsonWs with
    | '{' :: r =>
      match r.dropWhile isJsonWs with
      | '}' :: r2 => jsonStep fuel stack (JTask.ret (Json.obj []) r2)
      | '"' :: r2 =>
        match parseJString r2 with
        | some (kcs, r3) =>
          match r3.dropWhile isJsonWs with
          | ':' :: r5 => jsonStep fuel (JFrame.objF [] ⟨kcs⟩ :: stack) (JTask.parse r5)
          | _ => none
        | none => none
      | _ => none
    | '[' :: r =>
      match r.dropWhile isJsonWs with
      | ']' :: r2 => jsonStep fuel stack (JTask.ret (Json.arr []) r2)
      | r1 => jsonStep fuel (JFrame.arrF [] :: stack) (JTask.parse r1)
    | '"' :: r =>
      match parseJString r with
      | some (cs, r2) => jsonStep fuel stack (JTask.ret (Json.str ⟨cs⟩) r2)
      | none => none
    | 't' :: r =>
      if "rue".data <+: r then jsonStep fuel stack (JTask.ret (Json.bool true) (r.drop 3))
      else none
    | 'f' :: r =>
      if "alse".data <+: r then jsonStep fuel stack (JTask.ret (Json.bool false) (r.drop 4))
      else none
    | 'n' :: r =>
      if "ull".data <+: r then jsonStep fuel stack (JTask.ret Json.null (r.drop 3))
      else none
    | 'N' :: r =>
      if "aN".data <+: r then jsonStep fuel stack (JTask.ret (Json.num "NaN") (r.drop 2))
      else none
    | 'I' :: r =>
      if "nfinity".data <+: r then
        jsonStep fuel stack (JTask.ret (Json.num "Infinity") (r.drop 7))
      else none
    | '-' :: r =>
      if "Infinity".data <+: r then
        jsonStep fuel stack (JTask.ret (Json.num "-Infinity") (r.drop 8))
      else
        match parseJNumber ('-' :: r) with
        | some (lex, r2) => jsonStep fuel stack (JTask.ret (Json.num ⟨lex⟩) r2)
        | none => none
    | s1 =>
      match parseJNumber s1 with
      | some (lex, r2) => jsonStep fuel stack (JTask.ret (Json.num ⟨lex⟩) r2)
      | none => none
  | fuel + 1, stack, JTask.ret v s =>
    match stack with
    | [] => if s.dropWhile isJsonWs = [] then some v else none
    | JFrame.arrF acc :: st =>
      match s.dropWhile isJsonWs with
      | ',' :: r => jsonStep fuel (JFrame.arrF (acc ++ [v]) :: st) (JTask.parse r)
      | ']' :: r => jsonStep fuel st (JTask.ret (Json.arr (acc ++ [v])) r)
      | _ => none
    | JFrame.objF acc k :: st =>
      match s.dropWhile isJsonWs with
      | ',' :: r =>
        match r.dropWhile isJsonWs with
        | '"' :: r2 =>
          match parseJString r2 with
          | some (kcs, r3) =>
            match r3.dropWhile isJsonWs with
            | ':' :: r5 =>
              jsonStep fuel (JFrame.objF (jsonObjSet acc k v) ⟨kcs⟩ :: st) (JTask.parse r5)
            | _ => none
          | none => none
        | _ => none
      | '}' :: r => jsonStep fuel st (JTask.ret (Json.obj (jsonObjSet acc k v)) r)
      | _ => none

/-- Model of `json.loads`: parse one JSON document with nothing but
whitespace around it.  `none` where CPython raises `json.JSONDecodeError`. -/
def jsonLoads (s : List Char) : Option Json :=
  jsonStep (s.length + 2) [] (JTask.parse s)

/-! ### `generate_seo`: extraction, parsing, defaulting, prompt assembly -/

/-- The default metadata record substituted when SEO JSON parsing fails. -/
def defaultSeoJson : Json :=
  Json.obj [("metadescription", Json.str ""), ("metakeywords", Json.str "")]

/-- The raw text `generate_seo` hands to `json.loads` (`app.py` lines 84-85,
`app-single.py` lines 82-83): `m = re.search(r"```json(.*?)```", content,
re.S)`; `raw = m.group(1).strip() if m else content.strip()`. -/
def seoExtractRaw (content : List Char) : List Char :=
  match fencedSearch content with
  | some g => pyStrip g
  | none => pyStrip content

/-- The parse-and-default stage of `generate_seo` in `app.py` (lines 84-90):
`json.loads(raw)`, with `json.JSONDecodeError` caught and replaced by a
Streamlit warning and the empty-metadata record.  The second component is
the list of warnings shown. -/
def generate_seo_parse (content : String) : Json × List String :=
  match jsonLoads (seoExtractRaw content.data) with
  | some j => (j, [])
  | none => (defaultSeoJson, ["⚠️ SEO parsing failed; using empty metadata."])

/-- The parse-and-default stage of `generate_seo` in `app-single.py`
(lines 82-88), identical but for the warning text. -/
def generate_seo_parse_single (content : String) : Json × List String :=
  match jsonLoads (seoExtractRaw content.data) with
  | some j => (j, [])
  | none => (defaultSeoJson, ["⚠️ SEO JSON parse failed; using empty metadata."])

/-- Prompt assembly of `generate_seo` in `app.py` (lines 78-82): the slide
lines are built first, evaluating `story['s2paragraph1']` ...
`story['s6paragraph1']` in order, then the prompt f-string evaluates
`story['storytitle']`; a missing key raises `KeyError` at its lookup. -/
def buildSeoPromptApp (story : Story) : Except PyErr String :=
  match dictGetE story "s2paragraph1" with
  | Except.error e => Except.error e
  | Except.ok p2 =>
  match dictGetE story "s3paragraph1" with
  | Except.error e => Except.error e
  | Except.ok p3 =>
  match dictGetE story "s4paragraph1" with
  | Except.error e => Except.error e
  | Except.ok p4 =>
  match dictGetE story "s5paragraph1" with
  | Except.error e => Except.error e
  | Except.ok p5 =>
  match dictGetE story "s6paragraph1" with
  | Except.error e => Except.error e
  | Except.ok p6 =>
  match dictGetE story "storytitle" with
  | Except.error e => Except.error e
  | Except.ok t =>
    Except.ok ("Generate SEO metadata strictly as JSON. Wrap in ```json``` only.\n" ++
      "Title: " ++ t ++ "\nSlides:\n" ++
      "- " ++ p2 ++ "\n- " ++ p3 ++ "\n- " ++ p4 ++ "\n- " ++ p5 ++ "\n- " ++ p6 ++
      "\nReturn keys: metadescription, metakeywords.")

/-- Prompt assembly of `generate_seo` in `app-single.py` (lines 74-78): the
f-string evaluates `data['storytitle']` first, then `data['s2paragraph1']`
... `data['s6paragraph1']` in order. -/
def buildSeoPromptSingle (story : Story) : Except PyErr String :=
  match dictGetE story "storytitle" with
  | Except.error e => Except.error e
  | Except.ok t =>
  match dictGetE story "s2paragraph1" with
  | Except.error e => Except.error e
  | Except.ok p2 =>
  match dictGetE story "s3paragraph1" with
  | Except.error e => Except.error e
  | Except.ok p3 =>
  match dictGetE story "s4paragraph1" with
  | Except.error e => Except.error e
  | Except.ok p4 =>
  match dictGetE story "s5paragraph1" with
  | Except.error e => Except.error e
  | Except.ok p5 =>
  match dictGetE story "s6paragraph1" with
  | Except.error e => Except.error e
  | Except.ok p6 =>
    Except.ok ("Generate SEO metadata *strictly* as JSON. Wrap your answer in ```json ... ``` with no extra text.\n\n" ++
      "Title: " ++ t ++ "\nSlides:\n- " ++ p2 ++ "\n- " ++ p3 ++ "\n" ++
      "- " ++ p4 ++ "\n- " ++ p5 ++ "\n- " ++ p6 ++
      "\nReturn keys: metadescription, metakeywords.")

/-- `generate_seo` of `app.py` (lines 77-90), with the chat-completion call
abstracted as `respond` (mapping the assembled user prompt to the model's
response text, or to a raised request exception). -/
def generate_seo (story : Story) (respond : String → Except PyErr String) :
    Except PyErr (Json × List String) :=
  match buildSeoPromptApp story with
  | Except.error e => Except.error e
  | Except.ok prompt =>
    match respond prompt with
    | Except.error e => Except.error e
    | Except.ok content => Except.ok (generate_seo_parse content)

/-- `generate_seo` of `app-single.py` (lines 73-88), likewise. -/
def generate_seo_single (story : Story) (respond : String → Except PyErr String) :
    Except PyErr (Json × List String) :=
  match buildSeoPromptSingle story with
  | Except.error e => Except.error e
  | Except.ok prompt =>
    match respond prompt with
    | Except.error e => Except.error e
    | Except.ok content => Except.ok (generate_seo_parse_single content)

/-! ### The narration (TTS) pipeline -/

/-- The static configuration both pipelines draw from Streamlit secrets:
`S3_PREFIX`, `CDN_BASE` and `DEFAULT_ERROR_IMAGE`. -/
structure Config where
  s3PrefixStr : String
  cdnBase : String
  defaultErrorImage : String

/-- The fixed field-to-audio-key mapping of `synthesize_audio` /
`synthesize_and_upload_audio`, in its dict-literal insertion order. -/
def audioMapping : List (String × String) :=
  [("storytitle", "s1audio1"), ("s2paragraph1", "s2audio1"), ("s3paragraph1", "s3audio1"),
    ("s4paragraph1", "s4audio1"), ("s5paragraph1", "s5audio1"), ("s6paragraph1", "s6audio1")]

/-- Environment of the narration pipeline: `uuid.uuid4().hex` for the n-th
synthesized clip of the run, and the possible failure of `s3.upload_file`
per key.  Speech synthesis itself is modelled as always completing: the
code discards the result object of `speak_text_async(...).get()`, which
reports failure through its `reason` field rather than by raising. -/
structure AudioEnv where
  fresh : Nat → String
  uploadErr : String → Option PyErr

/-- The per-field loop of `synthesize_audio` in `app.py` (lines 134-151),
threading the record, the `cdn_urls` dict and the count of synthesized
clips (which numbers the fresh uuid file names).  `story.get(field)`
returning nothing or the empty string skips the iteration
(`if not text: continue`). -/
def audioLoopApp (cfg : Config) (env : AudioEnv) :
    List (String × String) → Story → Story → Nat → Except PyErr (Story × Story × Nat)
  | [], story, cdn, n => Except.ok (story, cdn, n)
  | (field, akey) :: rest, story, cdn, n =>
    match lookupKey story field with
    | none => audioLoopApp cfg env rest story cdn n
    | some t =>
      if t = "" then audioLoopApp cfg env rest story cdn n
      else
        let fn := env.fresh n ++ ".mp3"
        let key := cfg.s3PrefixStr ++ "/audio/" ++ fn
        match env.uploadErr key with
        | some e => Except.error e
        | none =>
          let url := cfg.cdnBase ++ "/" ++ key
          audioLoopApp cfg env rest (setKey story akey url) (setKey cdn field url) (n + 1)

/-- `synthesize_audio` of `app.py` (lines 124-152): returns the augmented
record and the `cdn_urls` table. -/
def synthesize_audio (cfg : Config) (env : AudioEnv) (story : Story) :
    Except PyErr (Story × Story) :=
  match audioLoopApp cfg env audioMapping story [] 0 with
  | Except.ok (story', cdn, _) => Except.ok (story', cdn)
  | Except.error e => Except.error e

/-- The per-field loop of `synthesize_and_upload_audio` in `app-single.py`
(lines 128-141); its CDN URL is joined without a separator
(`f"{CDN_BASE}{key}"`) and no `cdn_urls` table is kept. -/
def audioLoopSingle (cfg : Config) (env : AudioEnv) :
    List (String × String) → Story → Nat → Except PyErr (Story × Nat)
  | [], story, n => Except.ok (story, n)
  | (field, akey) :: rest, story, n =>
    match lookupKey story field with
    | none => audioLoopSingle cfg env rest story n
    | some t =>
      if t = "" then audioLoopSingle cfg env rest story n
      else
        let fn := env.fresh n ++ ".mp3"
        let key := cfg.s3PrefixStr ++ "/audio/" ++ fn
        match env.uploadErr key with
        | some e => Except.error e
        | none =>
          audioLoopSingle cfg env rest (setKey story akey (cfg.cdnBase ++ key)) (n + 1)

/-- `synthesize_and_upload_audio` of `app-single.py` (lines 122-142). -/
def synthesize_and_upload_audio (cfg : Config) (env : AudioEnv) (story : Story) :
    Except PyErr Story :=
  match audioLoopSingle cfg env audioMapping story 0 with
  | Except.ok (story', _) => Except.ok story'
  | Except.error e => Except.error e

/-- The audio fields the `app.py` narration loop appends to the record: one
`(audio_key, url)` per mapping entry whose source field is present and
non-empty, numbered in processing order. -/
def audioExpectedApp (cfg : Config) (env : AudioEnv) :
    List (String × String) → Story → Nat → List (String × String)
  | [], _, _ => []
  | (field, akey) :: rest, story, n =>
    match lookupKey story field with
    | none => audioExpectedApp cfg env rest story n
    | some t =>
      if t = "" then audioExpectedApp cfg env rest story n
      else
        (akey, cfg.cdnBase ++ "/" ++ (cfg.s3PrefixStr ++ "/audio/" ++ (env.fresh n ++ ".mp3"))) ::
          audioExpectedApp cfg env rest story (n + 1)

/-- The `cdn_urls` entries of the `app.py` narration loop: one
`(field, url)` per synthesized entry. -/
def audioCdnExpectedApp (cfg : Config) (env : AudioEnv) :
    List (String × String) → Story → Nat → List (String × String)
  | [], _, _ => []
  | (field, _akey) :: rest, story, n =>
    match lookupKey story field with
    | none => audioCdnExpectedApp cfg env rest story n
    | some t =>
      if t = "" then audioCdnExpectedApp cfg env rest story n
      else
        (field, cfg.cdnBase ++ "/" ++ (cfg.s3PrefixStr ++ "/audio/" ++ (env.fresh n ++ ".mp3"))) ::
          audioCdnExpectedApp cfg env rest story (n + 1)

/-! ### The image pipeline -/

/-- A PIL image as the pipeline observes it: its mode, its size, and an
abstract identity for its pixel content (which decoded bytes produced it). -/
structure PILImage where
  mode : String
  width : Nat
  height : Nat
  src : Nat
deriving DecidableEq, Repr

/-- `img.convert(m)`. -/
def PILImage.convert (im : PILImage) (m : String) : PILImage :=
  ⟨m, im.width, im.height, im.src⟩

/-- `img.resize((w, h))`. -/
def PILImage.resize (im : PILImage) (w h : Nat) : PILImage :=
  ⟨im.mode, w, h, im.src⟩

/-- The image-pipeline environment, one fallible operation per external
effect of the per-slide loop.  `dalle` covers the POST to the DALL-E
endpoint, `raise_for_status` and the JSON field accesses yielding the
generated image URL; `fetch` covers `requests.get(url)` of image bytes
(identified abstractly by a number); `decode` covers `Image.open`;
`fallback` covers `requests.get(DEFAULT_ERROR_IMAGE, stream=True).raw`;
`saveErr` covers `img.save(buf, "JPEG")`; `uploadErr` covers
`s3.upload_fileobj` / `s3.upload_file` per key.  Operations are
deterministic per argument, a convention for modelling a single run. -/
structure ImgEnv where
  dalle : String → Except PyErr String
  fetch : String → Except PyErr Nat
  decode : Nat → Except PyErr PILImage
  fallback : String → Except PyErr Nat
  saveErr : PILImage → Option PyErr
  uploadErr : String → Option PyErr

/-- The `try` body of a slide: request the image, fetch it, decode it and
normalize it to RGB 720x1200 (`app.py` lines 104-110, `app-single.py`
lines 99-105). -/
def tryGenImage (env : ImgEnv) (prompt : String) : Except PyErr PILImage :=
  match env.dalle prompt with
  | Except.error e => Except.error e
  | Except.ok url =>
    match env.fetch url with
    | Except.error e => Except.error e
    | Except.ok bytes =>
      match env.decode bytes with
      | Except.error e => Except.error e
      | Except.ok img => Except.ok ((img.convert "RGB").resize 720 1200)

/-- The `except` branch of a slide, after the error message is shown: fetch
the configured fallback image, decode it and normalize it the same way
(`app.py` lines 113-114, `app-single.py` line 108).  These exceptions are
not caught. -/
def fallbackImage (cfg : Config) (env : ImgEnv) : Except PyErr PILImage :=
  match env.fallback cfg.defaultErrorImage with
  | Except.error e => Except.error e
  | Except.ok bytes =>
    match env.decode bytes with
    | Except.error e => Except.error e
    | Except.ok img => Except.ok ((img.convert "RGB").resize 720 1200)

/-- The record field holding slide `i`'s image URL, `f"s{i}image1"`. -/
def imgKeyStr (i : Nat) : String := "s" ++ toString i ++ "image1"

/-- The record field holding slide `i`'s image prompt, `f"s{i}alt1"`. -/
def altKeyStr (i : Nat) : String := "s" ++ toString i ++ "alt1"

/-- The S3 key of slide `i`, `f"{S3_PREFIX}/{slug}/slide{i}.jpg"`. -/
def slideKey (cfg : Config) (slug : String) (i : Nat) : String :=
  cfg.s3PrefixStr ++ "/" ++ slug ++ "/slide" ++ toString i ++ ".jpg"

/-- State threaded through the slide loop: the record, the Streamlit error
messages shown so far, the `(key, image)` pairs uploaded so far (the image
being the content of the encoded JPEG buffer), and the Python local `img`
left over from the latest iteration. -/
structure ImgState where
  story : Story
  errors : List String
  uploads : List (String × PILImage)
  cur : Option PILImage
deriving DecidableEq, Repr

/-- One slide of the image loop (`app.py` lines 101-120 and `app-single.py`
lines 96-112, which differ only in how the CDN URL is joined, abstracted as
`mkUrl`, and in the error message prefix `msgPre`): on any exception in the
`try` body, show a Streamlit error for this slide and substitute the
normalized fallback image; then JPEG-encode, upload under the slide key and
record `s{i}image1`.  Exceptions of the fallback fetch and decode, the JPEG
encode and the upload are not caught. -/
def slideStep (cfg : Config) (env : ImgEnv) (slug : String) (mkUrl : String → String)
    (msgPre : String) (i : Nat) (st : ImgState) : Except PyErr ImgState :=
  let prompt := (lookupKey st.story (altKeyStr i)).getD ""
  let acquired : Except PyErr (PILImage × List String) :=
    match tryGenImage env prompt with
    | Except.ok img => Except.ok (img, st.errors)
    | Except.error e =>
      match fallbackImage cfg env with
      | Except.error e' => Except.error e'
      | Except.ok img =>
        Except.ok (img, st.errors ++ [msgPre ++ toString i ++ ": " ++ renderErr e])
  match acquired with
  | Except.error e => Except.error e
  | Except.ok (img, errs) =>
    match env.saveErr img with
    | some e => Except.error e
    | none =>
      match env.uploadErr (slideKey cfg slug i) with
      | some e => Except.error e
      | none =>
        Except.ok ⟨setKey st.story (imgKeyStr i) (mkUrl (slideKey cfg slug i)),
          errs, st.uploads ++ [(slideKey cfg slug i, img)], some img⟩

/-- The slide loop over `range(1, 7)`. -/
def imgLoop (cfg : Config) (env : ImgEnv) (slug : String) (mkUrl : String → String)
    (msgPre : String) : List Nat → ImgState → Except PyErr ImgState
  | [], st => Except.ok st
  | i :: rest, st =>
    match slideStep cfg env slug mkUrl msgPre i st with
    | Except.error e => Except.error e
    | Except.ok st' => imgLoop cfg env slug mkUrl msgPre rest st'

/-- `generate_images` of `app.py` (lines 93-121): slug from the title
(`KeyError` if `storytitle` is absent), then the six slides; CDN URLs are
`f"{CDN_BASE}/{key}"`. -/
def generate_images (cfg : Config) (env : ImgEnv) (story : Story) :
    Except PyErr ImgState :=
  match dictGetE story "storytitle" with
  | Except.error e => Except.error e
  | Except.ok title =>
    imgLoop cfg env (slugApp title) (fun key => cfg.cdnBase ++ "/" ++ key)
      "Image gen failed slide " [1, 2, 3, 4, 5, 6] ⟨story, [], [], none⟩

/-- `generate_images_and_upload` of `app-single.py` (lines 91-119): the
slide loop (CDN URLs are `f"{CDN_BASE}{key}"`), then the portrait-cover
step, which re-encodes the image object left in the local `img` by the last
loop iteration — no fresh image is generated — and uploads it under
`{prefix}/{slug}/portrait_cover.jpg`, recording `portraitcoverurl`.  (The
`none` branch models the `NameError` Python would raise had the loop never
assigned `img`; the loop over `range(1, 7)` always does.) -/
def generate_images_and_upload (cfg : Config) (env : ImgEnv) (story : Story) :
    Except PyErr ImgState :=
  match dictGetE story "storytitle" with
  | Except.error e => Except.error e
  | Except.ok title =>
    match imgLoop cfg env (slugAppSingle title) (fun key => cfg.cdnBase ++ key)
        "Image gen failed for slide " [1, 2, 3, 4, 5, 6] ⟨story, [], [], none⟩ with
    | Except.error e => Except.error e
    | Except.ok st =>
      match st.cur with
      | none => Except.error (PyErr.exn "NameError: img")
      | some img =>
        match env.saveErr img with
        | some e => Except.error e
        | none =>
          match env.uploadErr (cfg.s3PrefixStr ++ "/" ++ slugAppSingle title ++
              "/portrait_cover.jpg") with
          | some e => Except.error e
          | none =>
            Except.ok ⟨setKey st.story "portraitcoverurl"
                (cfg.cdnBase ++ (cfg.s3PrefixStr ++ "/" ++ slugAppSingle title ++
                  "/portrait_cover.jpg")),
              st.errors,
              st.uploads ++ [(cfg.s3PrefixStr ++ "/" ++ slugAppSingle title ++
                "/portrait_cover.jpg", img)],
              some img⟩

/-- The image a slide ends up uploading on a run where the fallback is
available: the generated image if the `try` body succeeds, otherwise the
normalized fallback image `fimg`. -/
def expectedSlideImg (env : ImgEnv) (story : Story) (fimg : PILImage) (i : Nat) : PILImage :=
  match tryGenImage env ((lookupKey story (altKeyStr i)).getD "") with
  | Except.ok img => img
  | Except.error _ => fimg

/-- The Streamlit error a slide emits, if its `try` body fails. -/
def expectedSlideErr (env : ImgEnv) (story : Story) (msgPre : String) (i : Nat) :
    Option String :=
  match tryGenImage env ((lookupKey story (altKeyStr i)).getD "") with
  | Except.ok _ => none
  | Except.error e => some (msgPre ++ toString i ++ ": " ++ renderErr e)

/-- A concrete configuration used to evaluate the pipeline models. -/
def cfgW : Config :=
  ⟨"media", "https://media.suvichaar.org", "https://media.suvichaar.org/default-error.jpg"⟩

/-- A concrete always-succeeding narration environment. -/
def envW : AudioEnv := ⟨fun n => "clip" ++ toString n, fun _ => none⟩

/-- A fully populated narrative record as produced by `generate_story`. -/
def storyW : Story :=
  [("storytitle", "T"), ("s2paragraph1", "p2"), ("s3paragraph1", "p3"),
    ("s4paragraph1", "p4"), ("s5paragraph1", "p5"), ("s6paragraph1", "p6"),
    ("s1alt1", "a1"), ("s2alt1", "a2"), ("s3alt1", "a3"), ("s4alt1", "a4"),
    ("s5alt1", "a5"), ("s6alt1", "a6")]

/-- A concrete image environment where slide 3's generation request fails
and everything else succeeds. -/
def imgEnvFailW : ImgEnv :=
  ⟨fun p => if p = "a3" then Except.error (PyErr.exn "boom") else Except.ok ("u" ++ p),
    fun u => Except.ok u.length,
    fun b => Except.ok ⟨"RGBA", 1024, 1024, b⟩,
    fun _ => Except.ok 77,
    fun _ => none,
    fun _ => none⟩

/-- A concrete image environment where slide 3's generation fails and the
fallback fetch itself fails. -/
def imgEnvFbFailW : ImgEnv :=
  ⟨fun p => if p = "a3" then Except.error (PyErr.exn "boom") else Except.ok ("u" ++ p),
    fun u => Except.ok u.length,
    fun b => Except.ok ⟨"RGBA", 1024, 1024, b⟩,
    fun _ => Except.error (PyErr.exn "fallback down"),
    fun _ => none,
    fun _ => none⟩

/-- The audio fields the `app-single.py` narration loop appends. -/
def audioExpectedSingle (cfg : Config) (env : AudioEnv) :
    List (String × String) → Story → Nat → List (String × String)
  | [], _, _ => []
  | (field, akey) :: rest, story, n =>
    match lookupKey story field with
    | none => audioExpectedSingle cfg env rest story n
    | some t =>
      if t = "" then audioExpectedSingle cfg env rest story n
      else
        (akey, cfg.cdnBase ++ (cfg.s3PrefixStr ++ "/audio/" ++ (env.fresh n ++ ".mp3"))) ::
          audioExpectedSingle cfg env rest story (n + 1)

end LectNotes

namespace LectNotes

/-! ## Theorems -/

/-- Fuel is irrelevant for `pyReplaceAux` once it covers the string length
(the pattern is nonempty, so each step consumes at least one character). -/
theorem pyReplaceAux_fuel (pat v : List Char) (hpat : pat ≠ []) :
    ∀ m₁ : Nat, ∀ m₂ : Nat, ∀ s : List Char, s.length ≤ m₁ → s.length ≤ m₂ →
      pyReplaceAux pat v m₁ s = pyReplaceAux pat v m₂ s := by
  intro m₁
  induction m₁ with
  | zero =>
    intro m₂ s h1 _
    have hs : s = [] := List.length_eq_zero.mp (Nat.le_zero.mp h1)
    subst hs
    cases m₂ <;> rfl
  | succ n ih =>
    intro m₂ s h1 h2
    cases s with
    | nil => cases m₂ <;> rfl
    | cons c s' =>
      cases m₂ with
      | zero => exact absurd h2 (by simp)
      | succ m₂' =>
        show (if pat <+: (c :: s') then _ else _) = (if pat <+: (c :: s') then _ else _)
        by_cases hp : pat <+: (c :: s')
        · simp only [if_pos hp]
          have hp1 : 1 ≤ pat.length := by
            cases pat with
            | nil => exact absurd rfl hpat
            | cons _ _ => simp
          have hlen : ((c :: s').drop pat.length).length ≤ n := by
            simp only [List.length_drop, List.length_cons]
            simp only [List.length_cons] at h1
            omega
          have hlen2 : ((c :: s').drop pat.length).length ≤ m₂' := by
            simp only [List.length_drop, List.length_cons]
            simp only [List.length_cons] at h2
            omega
          rw [ih _ _ hlen hlen2]
        · simp only [if_neg hp]
          have hlen : s'.length ≤ n := by simp only [List.length_cons] at h1; omega
          have hlen2 : s'.length ≤ m₂' := by simp only [List.length_cons] at h2; omega
          rw [ih _ _ hlen hlen2]

/-- Unfolding: replacing in the empty string gives the empty string
(nonempty pattern). -/
theorem pyReplace_nil (p : Char) (pat' v : List Char) :
    pyReplace [] (p :: pat') v = [] := rfl

/-- Unfolding: one scanning step of `pyReplace` for a nonempty pattern. -/
theorem pyReplace_cons (c : Char) (s : List Char) (p : Char) (pat' v : List Char) :
    pyReplace (c :: s) (p :: pat') v =
      if (p :: pat') <+: (c :: s) then
        v ++ pyReplace ((c :: s).drop (p :: pat').length) (p :: pat') v
      else c :: pyReplace s (p :: pat') v := by
  show pyReplaceAux (p :: pat') v (c :: s).length (c :: s) = _
  have hne : (p :: pat') ≠ [] := by simp
  show (if (p :: pat') <+: (c :: s) then
      v ++ pyReplaceAux (p :: pat') v s.length ((c :: s).drop (p :: pat').length)
    else c :: pyReplaceAux (p :: pat') v s.length s) = _
  by_cases hp : (p :: pat') <+: (c :: s)
  · simp only [if_pos hp]
    congr 1
    have h1 : ((c :: s).drop (p :: pat').length).length ≤ s.length := by
      simp only [List.length_drop, List.length_cons]
      omega
    exact pyReplaceAux_fuel _ v hne _ _ _ h1 (Nat.le_refl _)
  · simp only [if_neg hp]
    rfl


/-- C6: slug derivation from the story title, on the spec's example title. -/
theorem slug_spec_example :
    slugAppSingle "The Solar System: An Overview" = "the-solar-system-an-overview" ∧
      slugApp "The Solar System: An Overview" = "the-solar-system:-an-overview" := by
  constructor <;> decide

/-- Unfolding of one step of the close-fence scan. -/
theorem findClose_cons (c : Char) (s : List Char) :
    findClose (c :: s) =
      if "```".data <+: (c :: s) then some (([] : List Char), (c :: s).drop 3)
      else
        match findClose s with
        | some (a, b) => some (c :: a, b)
        | none => none := rfl

/-- Unfolding of one step of the fence search. -/
theorem fencedSearch_cons (c : Char) (s : List Char) :
    fencedSearch (c :: s) =
      if "```json".data <+: (c :: s) then
        match findClose ((c :: s).drop 7) with
        | some (g, _) => some g
        | none => fencedSearch s
      else fencedSearch s := rfl

/-- A backtick-free region contributes its characters unchanged to the
close-fence scan: the first "```" of `mid ++ "```" ++ post` is the explicit
one, so the lazy group ends exactly at it. -/
theorem findClose_append (mid post : List Char) (h : ∀ c ∈ mid, c ≠ '\x60') :
    findClose (mid ++ "```".data ++ post) = some (mid, post) := by
  induction mid with
  | nil =>
    show findClose ('\x60' :: '\x60' :: '\x60' :: post) = some ([], post)
    rw [findClose_cons, if_pos ⟨post, rfl⟩]
    rfl
  | cons c mid' ih =>
    have hc : c ≠ '\x60' := h c (by simp)
    show findClose (c :: (mid' ++ "```".data ++ post)) = some (c :: mid', post)
    rw [findClose_cons, if_neg, ih (fun x hx => h x (by simp [hx]))]
    rintro ⟨t, ht⟩
    exact hc (by injection ht with h1 _; exact h1.symm)

/-- Leftmost-match behaviour of the fence search: with a backtick-free
region before the opening fence and a backtick-free group body, the regex
model finds exactly that body. -/
theorem fencedSearch_append (pre mid post : List Char)
    (hpre : ∀ c ∈ pre, c ≠ '\x60') (hmid : ∀ c ∈ mid, c ≠ '\x60') :
    fencedSearch (pre ++ "```json".data ++ mid ++ "```".data ++ post) = some mid := by
  induction pre with
  | nil =>
    show fencedSearch ('\x60' :: ('\x60' :: '\x60' :: 'j' :: 's' :: 'o' :: 'n' ::
      (mid ++ "```".data ++ post))) = some mid
    rw [fencedSearch_cons, if_pos ⟨mid ++ "```".data ++ post, rfl⟩]
    show (match findClose (mid ++ "```".data ++ post) with
      | some (g, _) => some g
      | none => _) = some mid
    rw [findClose_append mid post hmid]
  | cons c pre' ih =>
    have hc : c ≠ '\x60' := hpre c (by simp)
    show fencedSearch (c :: (pre' ++ "```json".data ++ mid ++ "```".data ++ post)) = some mid
    rw [fencedSearch_cons, if_neg]
    · exact ih (fun x hx => hpre x (by simp [hx]))
    · rintro ⟨t, ht⟩
      exact hc (by injection ht with h1 _; exact h1.symm)

/-- C5: the parsing policy of `generate_seo`.  A response containing a
"```json ... ```" fence after backtick-free text yields the fenced group,
and only the stripped group is handed to `json.loads`; a response with no
fence is stripped and parsed whole; the spec's concrete example parses to
the expected metadata record in both variants. -/
theorem generate_seo_parse_policy :
    (∀ pre mid post : List Char, (∀ c ∈ pre, c ≠ '\x60') → (∀ c ∈ mid, c ≠ '\x60') →
      fencedSearch (pre ++ "```json".data ++ mid ++ "```".data ++ post) = some mid ∧
        seoExtractRaw (pre ++ "```json".data ++ mid ++ "```".data ++ post) = pyStrip mid) ∧
    (∀ content : List Char, fencedSearch content = none →
      seoExtractRaw content = pyStrip content) ∧
    generate_seo_parse "noise ```json\n\x7b\"metadescription\":\"d\",\"metakeywords\":\"k\"\x7d\n``` trailing" =
      (Json.obj [("metadescription", Json.str "d"), ("metakeywords", Json.str "k")], []) ∧
    generate_seo_parse_single "noise ```json\n\x7b\"metadescription\":\"d\",\"metakeywords\":\"k\"\x7d\n``` trailing" =
      (Json.obj [("metadescription", Json.str "d"), ("metakeywords", Json.str "k")], []) := by
  refine ⟨fun pre mid post hpre hmid => ?_, fun content hnone => ?_, rfl, rfl⟩
  · have hf := fencedSearch_append pre mid post hpre hmid
    exact ⟨hf, by unfold seoExtractRaw; rw [hf]⟩
  · unfold seoExtractRaw; rw [hnone]

/-- Witness for the C5 policy theorem at the spec's own example response. -/
theorem generate_seo_parse_policy_witness :
    ((∀ c ∈ "noise ".data, c ≠ '\x60') ∧
      (∀ c ∈ "\n\x7b\"metadescription\":\"d\",\"metakeywords\":\"k\"\x7d\n".data, c ≠ '\x60') ∧
      fencedSearch ("noise ".data ++ "```json".data ++
        "\n\x7b\"metadescription\":\"d\",\"metakeywords\":\"k\"\x7d\n".data ++ "```".data ++
        " trailing".data) =
        some "\n\x7b\"metadescription\":\"d\",\"metakeywords\":\"k\"\x7d\n".data) ∧
    (fencedSearch "not json at all".data = none ∧
      seoExtractRaw "not json at all".data = pyStrip "not json at all".data) :=
  ⟨⟨by decide, by decide,
      (generate_seo_parse_policy.1 "noise ".data
        "\n\x7b\"metadescription\":\"d\",\"metakeywords\":\"k\"\x7d\n".data
        " trailing".data (by decide) (by decide)).1⟩,
    ⟨rfl, generate_seo_parse_policy.2.1 "not json at all".data rfl⟩⟩

/-- C2: on any response whose extracted text fails to parse as JSON, the
parse stage of `generate_seo` does not raise: it emits the warning and
returns exactly the empty-metadata record, in both variants. -/
theorem generate_seo_parse_default_on_failure (content : String)
    (hfail : jsonLoads (seoExtractRaw content.data) = none) :
    generate_seo_parse content =
        (defaultSeoJson, ["⚠️ SEO parsing failed; using empty metadata."]) ∧
      generate_seo_parse_single content =
        (defaultSeoJson, ["⚠️ SEO JSON parse failed; using empty metadata."]) := by
  constructor
  · unfold generate_seo_parse
    rw [hfail]
  · unfold generate_seo_parse_single
    rw [hfail]

/-- Witness for C2 on a plain non-JSON response with no fenced block. -/
theorem generate_seo_parse_default_on_failure_witness :
    jsonLoads (seoExtractRaw "This is plain text, not JSON.".data) = none ∧
      generate_seo_parse "This is plain text, not JSON." =
        (defaultSeoJson, ["⚠️ SEO parsing failed; using empty metadata."]) ∧
      generate_seo_parse_single "This is plain text, not JSON." =
        (defaultSeoJson, ["⚠️ SEO JSON parse failed; using empty metadata."]) :=
  ⟨rfl, (generate_seo_parse_default_on_failure "This is plain text, not JSON." rfl).1,
    (generate_seo_parse_default_on_failure "This is plain text, not JSON." rfl).2⟩

/-- The six field names `generate_seo` reads while assembling its prompt. -/
def requiredSeoKeys : List String :=
  ["storytitle", "s2paragraph1", "s3paragraph1", "s4paragraph1", "s5paragraph1", "s6paragraph1"]

/-- If a required key is missing, the `app.py` prompt assembly raises a
`KeyError`. -/
theorem buildSeoPromptApp_missing (story : Story)
    (hmiss : ∃ k ∈ requiredSeoKeys, lookupKey story k = none) :
    ∃ k, buildSeoPromptApp story = Except.error (PyErr.keyError k) := by
  unfold buildSeoPromptApp dictGetE
  rcases h2 : lookupKey story "s2paragraph1" with _ | v2
  · exact ⟨"s2paragraph1", rfl⟩
  rcases h3 : lookupKey story "s3paragraph1" with _ | v3
  · exact ⟨"s3paragraph1", rfl⟩
  rcases h4 : lookupKey story "s4paragraph1" with _ | v4
  · exact ⟨"s4paragraph1", rfl⟩
  rcases h5 : lookupKey story "s5paragraph1" with _ | v5
  · exact ⟨"s5paragraph1", rfl⟩
  rcases h6 : lookupKey story "s6paragraph1" with _ | v6
  · exact ⟨"s6paragraph1", rfl⟩
  rcases ht : lookupKey story "storytitle" with _ | vt
  · exact ⟨"storytitle", rfl⟩
  exfalso
  obtain ⟨k, hk, hnone⟩ := hmiss
  simp only [requiredSeoKeys, List.mem_cons, List.mem_singleton] at hk
  rcases hk with rfl | rfl | rfl | rfl | rfl | rfl | h
  · rw [ht] at hnone; cases hnone
  · rw [h2] at hnone; cases hnone
  · rw [h3] at hnone; cases hnone
  · rw [h4] at hnone; cases hnone
  · rw [h5] at hnone; cases hnone
  · rw [h6] at hnone; cases hnone
  · cases h

/-- If a required key is missing, the `app-single.py` prompt assembly raises
a `KeyError`. -/
theorem buildSeoPromptSingle_missing (story : Story)
    (hmiss : ∃ k ∈ requiredSeoKeys, lookupKey story k = none) :
    ∃ k, buildSeoPromptSingle story = Except.error (PyErr.keyError k) := by
  unfold buildSeoPromptSingle dictGetE
  rcases ht : lookupKey story "storytitle" with _ | vt
  · exact ⟨"storytitle", rfl⟩
  rcases h2 : lookupKey story "s2paragraph1" with _ | v2
  · exact ⟨"s2paragraph1", rfl⟩
  rcases h3 : lookupKey story "s3paragraph1" with _ | v3
  · exact ⟨"s3paragraph1", rfl⟩
  rcases h4 : lookupKey story "s4paragraph1" with _ | v4
  · exact ⟨"s4paragraph1", rfl⟩
  rcases h5 : lookupKey story "s5paragraph1" with _ | v5
  · exact ⟨"s5paragraph1", rfl⟩
  rcases h6 : lookupKey story "s6paragraph1" with _ | v6
  · exact ⟨"s6paragraph1", rfl⟩
  exfalso
  obtain ⟨k, hk, hnone⟩ := hmiss
  simp only [requiredSeoKeys, List.mem_cons, List.mem_singleton] at hk
  rcases hk with rfl | rfl | rfl | rfl | rfl | rfl | h
  · rw [ht] at hnone; cases hnone
  · rw [h2] at hnone; cases hnone
  · rw [h3] at hnone; cases hnone
  · rw [h4] at hnone; cases hnone
  · rw [h5] at hnone; cases hnone
  · rw [h6] at hnone; cases hnone
  · cases h

/-- C9: on a record missing `storytitle` or any of
`s2paragraph1`..`s6paragraph1`, `generate_seo` raises a `KeyError` while
assembling the prompt, in both variants; the result does not depend on the
model call (no request is made) and is never the empty-metadata default. -/
theorem generate_seo_missing_key_raises (story : Story)
    (hmiss : ∃ k ∈ requiredSeoKeys, lookupKey story k = none)
    (respond : String → Except PyErr String) :
    (∃ k, generate_seo story respond = Except.error (PyErr.keyError k)) ∧
    (∃ k, generate_seo_single story respond = Except.error (PyErr.keyError k)) ∧
    (∀ respond' : String → Except PyErr String,
      generate_seo story respond = generate_seo story respond' ∧
      generate_seo_single story respond = generate_seo_single story respond') ∧
    (∀ out : Json × List String, generate_seo story respond ≠ Except.ok out ∧
      generate_seo_single story respond ≠ Except.ok out) := by
  obtain ⟨k1, h1⟩ := buildSeoPromptApp_missing story hmiss
  obtain ⟨k2, h2⟩ := buildSeoPromptSingle_missing story hmiss
  refine ⟨⟨k1, ?_⟩, ⟨k2, ?_⟩, fun respond' => ⟨?_, ?_⟩, fun out => ⟨?_, ?_⟩⟩
  · unfold generate_seo; rw [h1]
  · unfold generate_seo_single; rw [h2]
  · unfold generate_seo; rw [h1]
  · unfold generate_seo_single; rw [h2]
  · unfold generate_seo; rw [h1]; exact fun h => by cases h
  · unfold generate_seo_single; rw [h2]; exact fun h => by cases h

/-! ### `fill_template` lemmas -/

/-- No occurrence of a pattern opening with a brace can start inside a
region free of opening braces. -/
theorem no_occ_in_no_open (pat' : List Char) (a r : List Char) (i : Nat)
    (hi : i < a.length) (ha : ∀ c ∈ a, c ≠ '{') :
    ¬ ('{' :: pat') <+: (a ++ r).drop i := by
  rintro ⟨u, hu⟩
  rw [List.drop_append_of_le_length (Nat.le_of_lt hi), List.drop_eq_getElem_cons hi] at hu
  simp only [List.cons_append] at hu
  injection hu with h1 _
  exact ha a[i] (List.getElem_mem hi) h1.symm

/-- A replacement pass walks past a region in which no occurrence of the
pattern starts. -/
theorem pyReplace_append_no_occ (p : Char) (pat' v : List Char) :
    ∀ a r : List Char, (∀ i : Nat, i < a.length → ¬ (p :: pat') <+: (a ++ r).drop i) →
      pyReplace (a ++ r) (p :: pat') v = a ++ pyReplace r (p :: pat') v := by
  intro a
  induction a with
  | nil => intro r _; rfl
  | cons c a' ih =>
    intro r h
    show pyReplace (c :: (a' ++ r)) (p :: pat') v = _
    rw [pyReplace_cons, if_neg (by simpa using h 0 (by simp))]
    rw [ih r (fun i hi => by
      have h2 := h (i + 1) (by simpa using Nat.succ_lt_succ hi)
      simpa [List.cons_append, List.drop_succ_cons] using h2)]
    rfl

/-- The specialization to placeholder patterns. -/
theorem pyReplace_append_no_occ_ph (k v : List Char) (a r : List Char)
    (h : ∀ i : Nat, i < a.length → ¬ placeholder k <+: (a ++ r).drop i) :
    pyReplace (a ++ r) (placeholder k) v = a ++ pyReplace r (placeholder k) v :=
  pyReplace_append_no_occ '{' ('{' :: (k ++ ['}', '}'])) v a r h

/-- A replacement pass consumes the pattern standing at the front. -/
theorem pyReplace_self_head (k v rest : List Char) :
    pyReplace (placeholder k ++ rest) (placeholder k) v =
      v ++ pyReplace rest (placeholder k) v := by
  show pyReplace ('{' :: (('{' :: (k ++ ['}', '}'])) ++ rest))
    ('{' :: ('{' :: (k ++ ['}', '}']))) v = _
  rw [pyReplace_cons, if_pos ⟨rest, rfl⟩]
  rw [show ('{' :: (('{' :: (k ++ ['}', '}'])) ++ rest)).drop
      ('{' :: ('{' :: (k ++ ['}', '}']))).length = rest from List.drop_left (placeholder k) rest]
  rfl

/-- Distinct brace-free keys: the body-and-close of one placeholder is never
a prefix where the other's body-and-close stands. -/
theorem not_prefix_key_close (r : List Char) :
    ∀ k n : List Char, braceFree k → braceFree n → k ≠ n →
      ¬ (k ++ ['}', '}']) <+: ((n ++ ['}', '}']) ++ r) := by
  intro k
  induction k with
  | nil =>
    intro n hk hn hne
    cases n with
    | nil => exact absurd rfl hne
    | cons c n' =>
      rintro ⟨u, hu⟩
      have hh : '}' = c := by
        have := congrArg (fun l => l.head?) hu
        simpa using this
      exact (hn c (by simp)).2 hh.symm
  | cons a k' ih =>
    intro n hk hn hne
    cases n with
    | nil =>
      rintro ⟨u, hu⟩
      have hh : a = '}' := by
        have := congrArg (fun l => l.head?) hu
        simpa using this
      exact (hk a (by simp)).2 hh
    | cons b n' =>
      rintro ⟨u, hu⟩
      have hab : a = b := by
        have := congrArg (fun l => l.head?) hu
        simpa using this
      have htl : (k' ++ ['}', '}']) <+: ((n' ++ ['}', '}']) ++ r) := by
        refine ⟨u, ?_⟩
        have := congrArg (fun l => l.tail) hu
        simpa using this
      refine ih n' (fun c hc => hk c (by simp [hc])) (fun c hc => hn c (by simp [hc]))
        (fun he => hne (by rw [hab, he])) htl

/-- No occurrence of the placeholder of `k` starts inside the placeholder
of a different brace-free name `n`. -/
theorem no_occ_in_placeholder (k n rest : List Char) (hk : braceFree k) (hn : braceFree n)
    (hne : n ≠ k) :
    ∀ i : Nat, i < (placeholder n).length →
      ¬ placeholder k <+: (placeholder n ++ rest).drop i := by
  intro i hi
  rcases i with _ | i
  · simp only [List.drop_zero]
    rintro ⟨u, hu⟩
    have h1 : (k ++ ['}', '}']) ++ u = (n ++ ['}', '}']) ++ rest := by
      have := congrArg (fun l => l.tail.tail) hu
      simpa [placeholder] using this
    exact not_prefix_key_close rest k n hk hn (fun he => hne he.symm) ⟨u, h1⟩
  rcases i with _ | j
  · show ¬ placeholder k <+: (placeholder n ++ rest).drop 1
    have hdrop : (placeholder n ++ rest).drop 1 = '{' :: ((n ++ ['}', '}']) ++ rest) := by
      simp [placeholder, List.cons_append, List.drop_succ_cons]
    rw [hdrop]
    rintro ⟨u, hu⟩
    cases n with
    | nil =>
      have := congrArg (fun l => l.tail.head?) hu
      simp [placeholder] at this
    | cons c n' =>
      have hh : '{' = c := by
        have := congrArg (fun l => l.tail.head?) hu
        simpa [placeholder] using this
      exact (hn c (by simp)).1 hh.symm
  · have hj : j < (n ++ ['}', '}']).length := by
      simp only [placeholder, List.length_cons, List.length_append] at hi
      simp only [List.length_append]
      simp at hi ⊢
      omega
    have hdrop : (placeholder n ++ rest).drop (j + 2) = ((n ++ ['}', '}']) ++ rest).drop j := by
      simp [placeholder, List.cons_append, List.drop_succ_cons]
    rw [hdrop]
    exact no_occ_in_no_open ('{' :: (k ++ ['}', '}'])) (n ++ ['}', '}']) rest j hj
      (by
        intro c hc
        rcases List.mem_append.mp hc with h1 | h1
        · exact (hn c h1).1
        · simp at h1
          rw [h1]
          decide)

/-- One `replace` pass on a well-formed template substitutes exactly the
placeholders named `k`, token by token. -/
theorem pyReplace_render (k v : List Char) (hk : braceFree k) :
    ∀ ts : List Tok, (∀ t ∈ ts, TokOK t) →
      pyReplace (renderToks ts) (placeholder k) v = renderToks (ts.map (substOne k v)) := by
  intro ts
  induction ts with
  | nil => intro _; rfl
  | cons t ts ih =>
    intro hts
    have htOK : TokOK t := hts t (by simp)
    have htsOK : ∀ t' ∈ ts, TokOK t' := fun t' h => hts t' (by simp [h])
    cases t with
    | lit s =>
      show pyReplace (s ++ renderToks ts) (placeholder k) v =
        s ++ renderToks (ts.map (substOne k v))
      rw [pyReplace_append_no_occ_ph k v s (renderToks ts)
        (fun i hi => no_occ_in_no_open _ s (renderToks ts) i hi (fun c hc => (htOK c hc).1)),
        ih htsOK]
    | ph n =>
      by_cases hnk : n = k
      · subst hnk
        show pyReplace (placeholder n ++ renderToks ts) (placeholder n) v =
          Tok.render (if n = n then Tok.lit v else Tok.ph n) ++
            renderToks (ts.map (substOne n v))
        rw [pyReplace_self_head, ih htsOK, if_pos rfl]
        rfl
      · show pyReplace (placeholder n ++ renderToks ts) (placeholder k) v =
          Tok.render (if n = k then Tok.lit v else Tok.ph n) ++
            renderToks (ts.map (substOne k v))
        rw [pyReplace_append_no_occ_ph k v (placeholder n) (renderToks ts)
          (no_occ_in_placeholder k n (renderToks ts) hk htOK hnk), ih htsOK, if_neg hnk]
        rfl

/-- Simultaneous substitution of the empty record is the identity. -/
theorem substAll_nil (t : Tok) : substAll [] t = t := by
  cases t <;> rfl

/-- Simultaneous substitution of a record factors through its first
entry. -/
theorem substAll_cons (k v : List Char) (rest : List (List Char × List Char)) (t : Tok) :
    substAll ((k, v) :: rest) t = substAll rest (substOne k v t) := by
  cases t with
  | lit s => rfl
  | ph n =>
    by_cases h : n = k
    · subst h
      show (match List.find? (fun p => p.1 == n) ((n, v) :: rest) with
        | some p => Tok.lit p.2
        | none => Tok.ph n) = substAll rest (if n = n then Tok.lit v else Tok.ph n)
      rw [List.find?_cons_of_pos _ (by simp), if_pos rfl]
      rfl
    · show (match List.find? (fun p => p.1 == n) ((k, v) :: rest) with
        | some p => Tok.lit p.2
        | none => Tok.ph n) = substAll rest (if n = k then Tok.lit v else Tok.ph n)
      rw [List.find?_cons_of_neg _ (by simp [Ne.symm h]), if_neg h]
      rfl

/-- Sequential replacement over a well-formed template equals simultaneous
substitution. -/
theorem fillTemplateCore_tokens :
    ∀ story : List (List Char × List Char), ∀ ts : List Tok,
      (∀ p ∈ story, braceFree p.1 ∧ braceFree p.2) →
      (∀ t ∈ ts, TokOK t) →
      fillTemplateCore (renderToks ts) story = renderToks (ts.map (substAll story)) := by
  intro story
  induction story with
  | nil =>
    intro ts _ _
    show renderToks ts = renderToks (ts.map (substAll []))
    rw [(List.map_congr_left (fun t _ => substAll_nil t)).trans (List.map_id ts)]
  | cons p rest ih =>
    intro ts hstory hts
    obtain ⟨k, v⟩ := p
    have hk : braceFree k := (hstory (k, v) (by simp)).1
    have hv : braceFree v := (hstory (k, v) (by simp)).2
    show fillTemplateCore (pyReplace (renderToks ts) (placeholder k) v) rest =
      renderToks (ts.map (substAll ((k, v) :: rest)))
    rw [pyReplace_render k v hk ts hts]
    rw [ih (ts.map (substOne k v)) (fun q hq => hstory q (by simp [hq]))
      (by
        intro t' ht'
        obtain ⟨t, ht, rfl⟩ := List.mem_map.mp ht'
        cases t with
        | lit s => exact hts (Tok.lit s) ht
        | ph n =>
          show TokOK (if n = k then Tok.lit v else Tok.ph n)
          by_cases hnk : n = k
          · rw [if_pos hnk]
            exact hv
          · rw [if_neg hnk]
            exact hts (Tok.ph n) ht)]
    rw [List.map_map]
    exact congrArg renderToks
      (List.map_congr_left (fun t _ => (substAll_cons k v rest t).symm))

/-- C1, counterexample to the claim as stated: on the template `"{{a}}"`
and the record `{a: "{{b}}", b: "X"}` — all values strings — the sequential
replacement of `fill_template` cascades: the occurrence of `{{a}}` does not
end up replaced by the field value `"{{b}}"` with all other text unchanged
(which would give `"{{b}}"`, as the one-pass substitution modelled from the
spec does); the second pass rewrites the inserted value, producing `"X"`. -/
theorem fill_template_claim_counterexample :
    fillTemplateCore "\x7b\x7ba\x7d\x7d".data
        [("a".data, "\x7b\x7bb\x7d\x7d".data), ("b".data, "X".data)] = "X".data ∧
      fillTemplateSpec [("a".data, "\x7b\x7bb\x7d\x7d".data), ("b".data, "X".data)]
        "\x7b\x7ba\x7d\x7d".data = "\x7b\x7bb\x7d\x7d".data ∧
      fillTemplateCore "\x7b\x7ba\x7d\x7d".data
          [("a".data, "\x7b\x7bb\x7d\x7d".data), ("b".data, "X".data)] ≠
        fillTemplateSpec [("a".data, "\x7b\x7bb\x7d\x7d".data), ("b".data, "X".data)]
          "\x7b\x7ba\x7d\x7d".data := by
  refine ⟨rfl, rfl, ?_⟩
  decide

/-- C1 (amended): for every template that is a concatenation of brace-free
literal runs and well-formed placeholders, and every record whose field
names and values are brace-free, `fill_template` replaces every placeholder
of a present field by that field's (first) value and leaves all literal
text, and every placeholder of an absent field such as `{{unknown_field}}`,
byte-for-byte unchanged — i.e. it coincides with the simultaneous one-pass
substitution.  (Without the brace-freeness proviso the sequential passes
can cascade, as the counterexample shows.) -/
theorem fill_template_amended (story : List (List Char × List Char)) (ts : List Tok)
    (hstory : ∀ p ∈ story, braceFree p.1 ∧ braceFree p.2)
    (hts : ∀ t ∈ ts, TokOK t) :
    fillTemplateCore (renderToks ts) story = renderToks (ts.map (substAll story)) ∧
    fill_template ⟨renderToks ts⟩ (story.map (fun p => (⟨p.1⟩, ⟨p.2⟩))) =
      ⟨renderToks (ts.map (substAll story))⟩ := by
  have hcore := fillTemplateCore_tokens story ts hstory hts
  refine ⟨hcore, ?_⟩
  show String.mk (fillTemplateCore (renderToks ts)
    ((story.map (fun p => ((⟨p.1⟩ : String), (⟨p.2⟩ : String)))).map
      (fun p => (p.1.data, p.2.data)))) = String.mk (renderToks (ts.map (substAll story)))
  have hmap : (story.map (fun p => ((⟨p.1⟩ : String), (⟨p.2⟩ : String)))).map
      (fun p => (p.1.data, p.2.data)) = story := by
    rw [List.map_map]
    exact (List.map_congr_left (fun p _ => rfl)).trans (List.map_id story)
  rw [hmap]
  exact congrArg String.mk hcore

/-- Witness for the amended C1 on a concrete template with a known field, a
literal run and an unknown placeholder. -/
theorem fill_template_amended_witness :
    ((∀ p ∈ [("a".data, "1".data), ("b".data, "2".data)], braceFree p.1 ∧ braceFree p.2) ∧
      (∀ t ∈ [Tok.ph "a".data, Tok.lit " - ".data, Tok.ph "unknown_field".data], TokOK t)) ∧
    fillTemplateCore
        (renderToks [Tok.ph "a".data, Tok.lit " - ".data, Tok.ph "unknown_field".data])
        [("a".data, "1".data), ("b".data, "2".data)] =
      renderToks ([Tok.ph "a".data, Tok.lit " - ".data, Tok.ph "unknown_field".data].map
        (substAll [("a".data, "1".data), ("b".data, "2".data)])) :=
  ⟨⟨by decide, by decide⟩,
    (fill_template_amended [("a".data, "1".data), ("b".data, "2".data)]
      [Tok.ph "a".data, Tok.lit " - ".data, Tok.ph "unknown_field".data]
      (by decide) (by decide)).1⟩

/-! ### Dictionary lemmas -/

/-- Keys of a concatenation. -/
theorem keysOf_append (s t : Story) : keysOf (s ++ t) = keysOf s ++ keysOf t := by
  induction s with
  | nil => rfl
  | cons p rest ih =>
    obtain ⟨k, v⟩ := p
    show k :: keysOf (rest ++ t) = k :: (keysOf rest ++ keysOf t)
    rw [ih]

/-- Assigning an absent key appends the entry. -/
theorem setKey_not_mem (s : Story) (k v : String) (h : k ∉ keysOf s) :
    setKey s k v = s ++ [(k, v)] := by
  induction s with
  | nil => rfl
  | cons p rest ih =>
    obtain ⟨k', v'⟩ := p
    have h1 : k' ≠ k := fun he => h (by simp [keysOf, he])
    have h2 : k ∉ keysOf rest := fun hm => h (by simp [keysOf, hm])
    show (if k' = k then _ else _) = _
    rw [if_neg h1, ih h2]
    rfl

/-- Assigning one key leaves every other key's lookup unchanged. -/
theorem lookupKey_setKey_ne (s : Story) (k v k' : String) (h : k ≠ k') :
    lookupKey (setKey s k v) k' = lookupKey s k' := by
  induction s with
  | nil =>
    show (if k = k' then some v else none) = none
    rw [if_neg h]
  | cons p rest ih =>
    obtain ⟨k₀, v₀⟩ := p
    by_cases h0 : k₀ = k
    · show lookupKey (if k₀ = k then (k, v) :: rest else _) k' = _
      rw [if_pos h0]
      show (if k = k' then some v else lookupKey rest k') =
        (if k₀ = k' then some v₀ else lookupKey rest k')
      rw [if_neg h, if_neg (h0 ▸ h)]
    · show lookupKey (if k₀ = k then _ else (k₀, v₀) :: setKey rest k v) k' = _
      rw [if_neg h0]
      show (if k₀ = k' then some v₀ else lookupKey (setKey rest k v) k') =
        (if k₀ = k' then some v₀ else lookupKey rest k')
      by_cases h1 : k₀ = k'
      · rw [if_pos h1, if_pos h1]
      · rw [if_neg h1, if_neg h1, ih]

/-- Lookup in a concatenation: the left record shadows the right one. -/
theorem lookupKey_append (s t : Story) (k : String) :
    lookupKey (s ++ t) k =
      match lookupKey s k with
      | some v => some v
      | none => lookupKey t k := by
  induction s with
  | nil => rfl
  | cons p rest ih =>
    obtain ⟨k₀, v₀⟩ := p
    show (if k₀ = k then some v₀ else lookupKey (rest ++ t) k) =
      match (if k₀ = k then some v₀ else lookupKey rest k) with
      | some v => some v
      | none => lookupKey t k
    by_cases h : k₀ = k
    · rw [if_pos h, if_pos h]
    · rw [if_neg h, if_neg h, ih]

/-- Lookup past a single appended entry with a different key. -/
theorem lookupKey_append_single_ne (s : Story) (a u k : String) (h : a ≠ k) :
    lookupKey (s ++ [(a, u)]) k = lookupKey s k := by
  rw [lookupKey_append]
  cases hl : lookupKey s k with
  | none =>
    show (if a = k then some u else none) = none
    rw [if_neg h]
  | some v => rfl

/-! ### Narration pipeline lemmas -/

/-- The expected audio fields depend on the record only through the source
fields of the remaining mapping entries. -/
theorem audioExpectedApp_congr (cfg : Config) (env : AudioEnv) :
    ∀ l : List (String × String), ∀ story story' : Story, ∀ n : Nat,
      (∀ p ∈ l, lookupKey story' p.1 = lookupKey story p.1) →
      audioExpectedApp cfg env l story' n = audioExpectedApp cfg env l story n := by
  intro l
  induction l with
  | nil => intro story story' n _; rfl
  | cons p rest ih =>
    intro story story' n h
    obtain ⟨field, akey⟩ := p
    have hf : lookupKey story' field = lookupKey story field := h (field, akey) (by simp)
    have hrest : ∀ p ∈ rest, lookupKey story' p.1 = lookupKey story p.1 :=
      fun q hq => h q (by simp [hq])
    simp only [audioExpectedApp]
    rw [hf]
    cases lookupKey story field with
    | none => exact ih story story' n hrest
    | some t =>
      show (if t = "" then _ else _) = (if t = "" then _ else _)
      by_cases ht : t = ""
      · simp only [if_pos ht]
        exact ih story story' n hrest
      · simp only [if_neg ht]
        rw [ih story story' (n + 1) hrest]

/-- Likewise for the `cdn_urls` table entries. -/
theorem audioCdnExpectedApp_congr (cfg : Config) (env : AudioEnv) :
    ∀ l : List (String × String), ∀ story story' : Story, ∀ n : Nat,
      (∀ p ∈ l, lookupKey story' p.1 = lookupKey story p.1) →
      audioCdnExpectedApp cfg env l story' n = audioCdnExpectedApp cfg env l story n := by
  intro l
  induction l with
  | nil => intro story story' n _; rfl
  | cons p rest ih =>
    intro story story' n h
    obtain ⟨field, akey⟩ := p
    have hf : lookupKey story' field = lookupKey story field := h (field, akey) (by simp)
    have hrest : ∀ p ∈ rest, lookupKey story' p.1 = lookupKey story p.1 :=
      fun q hq => h q (by simp [hq])
    simp only [audioCdnExpectedApp]
    rw [hf]
    cases lookupKey story field with
    | none => exact ih story story' n hrest
    | some t =>
      show (if t = "" then _ else _) = (if t = "" then _ else _)
      by_cases ht : t = ""
      · simp only [if_pos ht]
        exact ih story story' n hrest
      · simp only [if_neg ht]
        rw [ih story story' (n + 1) hrest]

/-- Likewise for the `app-single.py` expected audio fields. -/
theorem audioExpectedSingle_congr (cfg : Config) (env : AudioEnv) :
    ∀ l : List (String × String), ∀ story story' : Story, ∀ n : Nat,
      (∀ p ∈ l, lookupKey story' p.1 = lookupKey story p.1) →
      audioExpectedSingle cfg env l story' n = audioExpectedSingle cfg env l story n := by
  intro l
  induction l with
  | nil => intro story story' n _; rfl
  | cons p rest ih =>
    intro story story' n h
    obtain ⟨field, akey⟩ := p
    have hf : lookupKey story' field = lookupKey story field := h (field, akey) (by simp)
    have hrest : ∀ p ∈ rest, lookupKey story' p.1 = lookupKey story p.1 :=
      fun q hq => h q (by simp [hq])
    simp only [audioExpectedSingle]
    rw [hf]
    cases lookupKey story field with
    | none => exact ih story story' n hrest
    | some t =>
      show (if t = "" then _ else _) = (if t = "" then _ else _)
      by_cases ht : t = ""
      · simp only [if_pos ht]
        exact ih story story' n hrest
      · simp only [if_neg ht]
        rw [ih story story' (n + 1) hrest]

/-- Witness for C9 on a record missing `s4paragraph1`. -/
theorem generate_seo_missing_key_raises_witness :
    (∃ k ∈ requiredSeoKeys,
      lookupKey [("storytitle", "T"), ("s2paragraph1", "a"), ("s3paragraph1", "b"),
        ("s5paragraph1", "c"), ("s6paragraph1", "d")] k = none) ∧
    (∃ k, generate_seo [("storytitle", "T"), ("s2paragraph1", "a"), ("s3paragraph1", "b"),
        ("s5paragraph1", "c"), ("s6paragraph1", "d")] (fun _ => Except.ok "response") =
      Except.error (PyErr.keyError k)) :=
  ⟨by decide,
    (generate_seo_missing_key_raises
      [("storytitle", "T"), ("s2paragraph1", "a"), ("s3paragraph1", "b"),
        ("s5paragraph1", "c"), ("s6paragraph1", "d")] (by decide)
      (fun _ => Except.ok "response")).1⟩

/-- Characterization of the `app.py` narration loop on a run whose uploads
succeed: the record gains exactly the expected audio fields and the
`cdn_urls` table exactly the expected entries, in order. -/
theorem audioLoopApp_char (cfg : Config) (env : AudioEnv)
    (hup : ∀ key, env.uploadErr key = none) :
    ∀ l : List (String × String), ∀ story cdn : Story, ∀ n : Nat,
      (∀ p ∈ l, p.2 ∉ keysOf story) →
      (∀ p ∈ l, p.1 ∉ keysOf cdn) →
      (∀ p ∈ l, ∀ q ∈ l, p.1 ≠ q.2) →
      (l.map Prod.snd).Nodup →
      (l.map Prod.fst).Nodup →
      ∃ m : Nat, audioLoopApp cfg env l story cdn n =
        Except.ok (story ++ audioExpectedApp cfg env l story n,
          cdn ++ audioCdnExpectedApp cfg env l story n, m) := by
  intro l
  induction l with
  | nil =>
    intro story cdn n _ _ _ _ _
    exact ⟨n, by simp [audioLoopApp, audioExpectedApp, audioCdnExpectedApp]⟩
  | cons p rest ih =>
    intro story cdn n hk hc hdisj hns hnf
    obtain ⟨field, akey⟩ := p
    have hktl : ∀ q ∈ rest, q.2 ∉ keysOf story := fun q hq => hk q (by simp [hq])
    have hctl : ∀ q ∈ rest, q.1 ∉ keysOf cdn := fun q hq => hc q (by simp [hq])
    have hdtl : ∀ q ∈ rest, ∀ r ∈ rest, q.1 ≠ r.2 :=
      fun q hq r hr => hdisj q (by simp [hq]) r (by simp [hr])
    have hns' : (rest.map Prod.snd).Nodup := by
      simp only [List.map_cons, List.nodup_cons] at hns
      exact hns.2
    have hnf' : (rest.map Prod.fst).Nodup := by
      simp only [List.map_cons, List.nodup_cons] at hnf
      exact hnf.2
    rcases hl : lookupKey story field with _ | t
    · simp only [audioLoopApp, audioExpectedApp, audioCdnExpectedApp, hl]
      exact ih story cdn n hktl hctl hdtl hns' hnf'
    · by_cases ht : t = ""
      · simp only [audioLoopApp, audioExpectedApp, audioCdnExpectedApp, hl, if_pos ht]
        exact ih story cdn n hktl hctl hdtl hns' hnf'
      · have hknew : akey ∉ keysOf story := hk (field, akey) (by simp)
        have hcnew : field ∉ keysOf cdn := hc (field, akey) (by simp)
        simp only [audioLoopApp, audioExpectedApp, audioCdnExpectedApp, hl, if_neg ht, hup]
        rw [setKey_not_mem story akey _ hknew, setKey_not_mem cdn field _ hcnew]
        have hlookup : ∀ q ∈ rest,
            lookupKey (story ++ [(akey,
              cfg.cdnBase ++ "/" ++ (cfg.s3PrefixStr ++ "/audio/" ++ (env.fresh n ++ ".mp3")))]) q.1 =
              lookupKey story q.1 := by
          intro q hq
          refine lookupKey_append_single_ne story akey _ q.1 ?_
          exact fun he => hdisj q (by simp [hq]) (field, akey) (by simp) he.symm
        obtain ⟨m, hm⟩ := ih
          (story ++ [(akey,
            cfg.cdnBase ++ "/" ++ (cfg.s3PrefixStr ++ "/audio/" ++ (env.fresh n ++ ".mp3")))])
          (cdn ++ [(field,
            cfg.cdnBase ++ "/" ++ (cfg.s3PrefixStr ++ "/audio/" ++ (env.fresh n ++ ".mp3")))])
          (n + 1)
          (by
            intro q hq
            rw [keysOf_append]
            intro hmem
            rcases List.mem_append.mp hmem with h1 | h1
            · exact hktl q hq h1
            · have : q.2 = akey := by simpa [keysOf] using h1
              have : akey ∈ rest.map Prod.snd := this ▸ List.mem_map_of_mem Prod.snd hq
              simp only [List.map_cons, List.nodup_cons] at hns
              exact hns.1 this)
          (by
            intro q hq
            rw [keysOf_append]
            intro hmem
            rcases List.mem_append.mp hmem with h1 | h1
            · exact hctl q hq h1
            · have : q.1 = field := by simpa [keysOf] using h1
              have : field ∈ rest.map Prod.fst := this ▸ List.mem_map_of_mem Prod.fst hq
              simp only [List.map_cons, List.nodup_cons] at hnf
              exact hnf.1 this)
          hdtl hns' hnf'
        rw [audioExpectedApp_congr cfg env rest story _ (n + 1) hlookup,
          audioCdnExpectedApp_congr cfg env rest story _ (n + 1) hlookup] at hm
        refine ⟨m, ?_⟩
        rw [hm]
        simp [List.append_assoc]

/-- Characterization of the `app-single.py` narration loop, likewise. -/
theorem audioLoopSingle_char (cfg : Config) (env : AudioEnv)
    (hup : ∀ key, env.uploadErr key = none) :
    ∀ l : List (String × String), ∀ story : Story, ∀ n : Nat,
      (∀ p ∈ l, p.2 ∉ keysOf story) →
      (∀ p ∈ l, ∀ q ∈ l, p.1 ≠ q.2) →
      (l.map Prod.snd).Nodup →
      ∃ m : Nat, audioLoopSingle cfg env l story n =
        Except.ok (story ++ audioExpectedSingle cfg env l story n, m) := by
  intro l
  induction l with
  | nil =>
    intro story n _ _ _
    exact ⟨n, by simp [audioLoopSingle, audioExpectedSingle]⟩
  | cons p rest ih =>
    intro story n hk hdisj hns
    obtain ⟨field, akey⟩ := p
    have hktl : ∀ q ∈ rest, q.2 ∉ keysOf story := fun q hq => hk q (by simp [hq])
    have hdtl : ∀ q ∈ rest, ∀ r ∈ rest, q.1 ≠ r.2 :=
      fun q hq r hr => hdisj q (by simp [hq]) r (by simp [hr])
    have hns' : (rest.map Prod.snd).Nodup := by
      simp only [List.map_cons, List.nodup_cons] at hns
      exact hns.2
    rcases hl : lookupKey story field with _ | t
    · simp only [audioLoopSingle, audioExpectedSingle, hl]
      exact ih story n hktl hdtl hns'
    · by_cases ht : t = ""
      · simp only [audioLoopSingle, audioExpectedSingle, hl, if_pos ht]
        exact ih story n hktl hdtl hns'
      · have hknew : akey ∉ keysOf story := hk (field, akey) (by simp)
        simp only [audioLoopSingle, audioExpectedSingle, hl, if_neg ht, hup]
        rw [setKey_not_mem story akey _ hknew]
        have hlookup : ∀ q ∈ rest,
            lookupKey (story ++ [(akey,
              cfg.cdnBase ++ (cfg.s3PrefixStr ++ "/audio/" ++ (env.fresh n ++ ".mp3")))]) q.1 =
              lookupKey story q.1 := by
          intro q hq
          refine lookupKey_append_single_ne story akey _ q.1 ?_
          exact fun he => hdisj q (by simp [hq]) (field, akey) (by simp) he.symm
        obtain ⟨m, hm⟩ := ih
          (story ++ [(akey,
            cfg.cdnBase ++ (cfg.s3PrefixStr ++ "/audio/" ++ (env.fresh n ++ ".mp3")))])
          (n + 1)
          (by
            intro q hq
            rw [keysOf_append]
            intro hmem
            rcases List.mem_append.mp hmem with h1 | h1
            · exact hktl q hq h1
            · have : q.2 = akey := by simpa [keysOf] using h1
              have : akey ∈ rest.map Prod.snd := this ▸ List.mem_map_of_mem Prod.snd hq
              simp only [List.map_cons, List.nodup_cons] at hns
              exact hns.1 this)
          hdtl hns'
        rw [audioExpectedSingle_congr cfg env rest story _ (n + 1) hlookup] at hm
        refine ⟨m, ?_⟩
        rw [hm]
        simp [List.append_assoc]

/-- Membership in the expected audio fields: an audio key is produced
exactly for a mapping entry whose source field is present and non-empty. -/
theorem mem_audioExpectedApp (cfg : Config) (env : AudioEnv) :
    ∀ l : List (String × String), ∀ story : Story, ∀ n : Nat, ∀ akey : String,
      (akey ∈ (audioExpectedApp cfg env l story n).map Prod.fst) ↔
        ∃ p ∈ l, p.2 = akey ∧ ∃ t, lookupKey story p.1 = some t ∧ t ≠ "" := by
  intro l
  induction l with
  | nil => intro story n akey; simp [audioExpectedApp]
  | cons p rest ih =>
    intro story n akey
    obtain ⟨field, ak⟩ := p
    rcases hl : lookupKey story field with _ | t
    · simp only [audioExpectedApp, hl]
      rw [ih story n akey]
      constructor
      · rintro ⟨q, hq, h2, h3⟩
        exact ⟨q, by simp [hq], h2, h3⟩
      · rintro ⟨q, hq, h2, h3⟩
        rcases List.mem_cons.mp hq with rfl | hq'
        · obtain ⟨t, ht, _⟩ := h3
          rw [hl] at ht
          cases ht
        · exact ⟨q, hq', h2, h3⟩
    · by_cases ht : t = ""
      · simp only [audioExpectedApp, hl, if_pos ht]
        rw [ih story n akey]
        constructor
        · rintro ⟨q, hq, h2, h3⟩
          exact ⟨q, by simp [hq], h2, h3⟩
        · rintro ⟨q, hq, h2, h3⟩
          rcases List.mem_cons.mp hq with rfl | hq'
          · obtain ⟨t', ht', hne'⟩ := h3
            rw [hl] at ht'
            cases ht'
            exact absurd ht hne'
          · exact ⟨q, hq', h2, h3⟩
      · simp only [audioExpectedApp, hl, if_neg ht, List.map_cons]
        rw [List.mem_cons, ih story (n + 1) akey]
        constructor
        · rintro (rfl | ⟨q, hq, h2, h3⟩)
          · exact ⟨(field, akey), by simp, rfl, t, hl, ht⟩
          · exact ⟨q, by simp [hq], h2, h3⟩
        · rintro ⟨q, hq, h2, h3⟩
          rcases List.mem_cons.mp hq with rfl | hq'
          · exact Or.inl h2.symm
          · exact Or.inr ⟨q, hq', h2, h3⟩

/-- C4: the narration pipeline processes exactly the fixed field-to-audio
mapping in its fixed order; on a run whose uploads succeed and whose record
does not already carry audio fields, the record gains `s{i}audio1` exactly
for the sources that are present and non-empty (skipped sources write
nothing and nothing fails), and a fully populated record gains exactly
`s1audio1` through `s6audio1`, in both variants. -/
theorem synthesize_audio_fields (cfg : Config) (env : AudioEnv) (story : Story)
    (hup : ∀ key, env.uploadErr key = none)
    (hnew : ∀ p ∈ audioMapping, p.2 ∉ keysOf story) :
    (synthesize_audio cfg env story =
        Except.ok (story ++ audioExpectedApp cfg env audioMapping story 0,
          audioCdnExpectedApp cfg env audioMapping story 0) ∧
      synthesize_and_upload_audio cfg env story =
        Except.ok (story ++ audioExpectedSingle cfg env audioMapping story 0)) ∧
    (∀ p ∈ audioMapping,
      (p.2 ∈ (audioExpectedApp cfg env audioMapping story 0).map Prod.fst ↔
        ∃ t, lookupKey story p.1 = some t ∧ t ≠ "")) ∧
    ((∀ p ∈ audioMapping, ∃ t, lookupKey story p.1 = some t ∧ t ≠ "") →
      (audioExpectedApp cfg env audioMapping story 0).map Prod.fst =
        ["s1audio1", "s2audio1", "s3audio1", "s4audio1", "s5audio1", "s6audio1"]) := by
  refine ⟨⟨?_, ?_⟩, ?_, ?_⟩
  · obtain ⟨m, hm⟩ := audioLoopApp_char cfg env hup audioMapping story [] 0 hnew
      (by intro p _; simp [keysOf]) (by decide) (by decide) (by decide)
    rw [List.nil_append] at hm
    unfold synthesize_audio
    rw [hm]
  · obtain ⟨m, hm⟩ := audioLoopSingle_char cfg env hup audioMapping story 0 hnew
      (by decide) (by decide)
    unfold synthesize_and_upload_audio
    rw [hm]
  · intro p hp
    rw [mem_audioExpectedApp cfg env audioMapping story 0 p.2]
    constructor
    · rintro ⟨q, hq, h2, h3⟩
      have huniq : ∀ p ∈ audioMapping, ∀ q ∈ audioMapping, q.2 = p.2 → q = p := by decide
      exact (huniq p hp q hq h2) ▸ h3
    · intro h3
      exact ⟨p, hp, rfl, h3⟩
  · intro hall
    obtain ⟨t1, ht1, hn1⟩ := hall ("storytitle", "s1audio1") (by simp [audioMapping])
    obtain ⟨t2, ht2, hn2⟩ := hall ("s2paragraph1", "s2audio1") (by simp [audioMapping])
    obtain ⟨t3, ht3, hn3⟩ := hall ("s3paragraph1", "s3audio1") (by simp [audioMapping])
    obtain ⟨t4, ht4, hn4⟩ := hall ("s4paragraph1", "s4audio1") (by simp [audioMapping])
    obtain ⟨t5, ht5, hn5⟩ := hall ("s5paragraph1", "s5audio1") (by simp [audioMapping])
    obtain ⟨t6, ht6, hn6⟩ := hall ("s6paragraph1", "s6audio1") (by simp [audioMapping])
    simp [audioMapping, audioExpectedApp, ht1, ht2, ht3, ht4, ht5, ht6,
      hn1, hn2, hn3, hn4, hn5, hn6]

/-! ### Image pipeline lemmas -/

/-- String append acts as list append on the underlying characters. -/
theorem string_data_append (s t : String) : (s ++ t).data = s.data ++ t.data := by
  cases s
  cases t
  rfl

/-- No string ending in "image1" ends in "alt1". -/
theorem append_image1_ne_append_alt1 (a b : List Char) :
    a ++ "image1".data ≠ b ++ "alt1".data := by
  intro h
  have h1 := congrArg List.reverse h
  rw [List.reverse_append, List.reverse_append] at h1
  have e1 : "image1".data.reverse = ['1', 'e', 'g', 'a', 'm', 'i'] := rfl
  have e2 : "alt1".data.reverse = ['1', 't', 'l', 'a'] := rfl
  rw [e1, e2] at h1
  simp at h1

/-- An image field never collides with a prompt field, whatever the slide
numbers. -/
theorem imgKeyStr_ne_altKeyStr (i j : Nat) : imgKeyStr i ≠ altKeyStr j := by
  intro h
  refine append_image1_ne_append_alt1 ("s" ++ toString i).data ("s" ++ toString j).data ?_
  have hd := congrArg String.data h
  simp only [imgKeyStr, altKeyStr, string_data_append] at hd
  simpa [string_data_append] using hd

/-- Looking up the key just assigned. -/
theorem lookupKey_setKey_self (s : Story) (k v : String) :
    lookupKey (setKey s k v) k = some v := by
  induction s with
  | nil =>
    show (if k = k then some v else none) = some v
    rw [if_pos rfl]
  | cons p rest ih =>
    obtain ⟨k₀, v₀⟩ := p
    by_cases h0 : k₀ = k
    · show lookupKey (if k₀ = k then (k, v) :: rest else _) k = _
      rw [if_pos h0]
      show (if k = k then some v else lookupKey rest k) = some v
      rw [if_pos rfl]
    · show lookupKey (if k₀ = k then _ else (k₀, v₀) :: setKey rest k v) k = _
      rw [if_neg h0]
      show (if k₀ = k then some v₀ else lookupKey (setKey rest k v) k) = some v
      rw [if_neg h0, ih]

/-- A fold of assignments to keys other than `k` leaves `k`'s lookup
unchanged. -/
theorem lookupKey_foldl_setKey_ne (key val : Nat → String) :
    ∀ l : List Nat, ∀ s : Story, ∀ k : String, (∀ i ∈ l, key i ≠ k) →
      lookupKey (l.foldl (fun acc i => setKey acc (key i) (val i)) s) k = lookupKey s k := by
  intro l
  induction l with
  | nil => intro s k _; rfl
  | cons i rest ih =>
    intro s k h
    show lookupKey (rest.foldl _ (setKey s (key i) (val i))) k = _
    rw [ih (setKey s (key i) (val i)) k (fun j hj => h j (by simp [hj])),
      lookupKey_setKey_ne s (key i) (val i) k (h i (by simp))]

/-- A fold of assignments with pairwise distinct keys records each value. -/
theorem lookupKey_foldl_setKey (key val : Nat → String) :
    ∀ l : List Nat, ∀ s : Story, ∀ j : Nat, j ∈ l → (l.map key).Nodup →
      lookupKey (l.foldl (fun acc i => setKey acc (key i) (val i)) s) (key j) =
        some (val j) := by
  intro l
  induction l with
  | nil => intro s j hj _; cases hj
  | cons i rest ih =>
    intro s j hj hnd
    simp only [List.map_cons, List.nodup_cons] at hnd
    rcases List.mem_cons.mp hj with rfl | hj'
    · show lookupKey (rest.foldl _ (setKey s (key j) (val j))) (key j) = _
      rw [lookupKey_foldl_setKey_ne key val rest (setKey s (key j) (val j)) (key j)
        (fun r hr he => hnd.1 (he ▸ List.mem_map_of_mem key hr)),
        lookupKey_setKey_self]
    · exact ih (setKey s (key i) (val i)) j hj' hnd.2

/-- A fold of assignments of fresh, pairwise distinct keys appends the
entries in order. -/
theorem foldl_setKey_eq_append (key val : Nat → String) :
    ∀ l : List Nat, ∀ s : Story, (∀ i ∈ l, key i ∉ keysOf s) → (l.map key).Nodup →
      l.foldl (fun acc i => setKey acc (key i) (val i)) s =
        s ++ l.map (fun i => (key i, val i)) := by
  intro l
  induction l with
  | nil => intro s _ _; simp
  | cons i rest ih =>
    intro s hfresh hnd
    simp only [List.map_cons, List.nodup_cons] at hnd
    show rest.foldl _ (setKey s (key i) (val i)) = _
    rw [setKey_not_mem s (key i) (val i) (hfresh i (by simp)),
      ih (s ++ [(key i, val i)])
        (by
          intro r hr
          rw [keysOf_append]
          intro hmem
          rcases List.mem_append.mp hmem with h1 | h1
          · exact hfresh r (by simp [hr]) h1
          · have : key r = key i := by simpa [keysOf] using h1
            exact hnd.1 (this ▸ List.mem_map_of_mem key hr))
        hnd.2]
    simp [List.append_assoc]

/-- Unfolding of one iteration of the slide loop. -/
theorem imgLoop_cons (cfg : Config) (env : ImgEnv) (slug : String)
    (mkUrl : String → String) (msgPre : String) (i : Nat) (rest : List Nat)
    (st : ImgState) :
    imgLoop cfg env slug mkUrl msgPre (i :: rest) st =
      match slideStep cfg env slug mkUrl msgPre i st with
      | Except.error e => Except.error e
      | Except.ok st' => imgLoop cfg env slug mkUrl msgPre rest st' := rfl

/-- Running the slide loop over a concatenation runs the pieces in
sequence, propagating an abort. -/
theorem imgLoop_append (cfg : Config) (env : ImgEnv) (slug : String)
    (mkUrl : String → String) (msgPre : String) :
    ∀ a b : List Nat, ∀ st : ImgState,
      imgLoop cfg env slug mkUrl msgPre (a ++ b) st =
        match imgLoop cfg env slug mkUrl msgPre a st with
        | Except.error e => Except.error e
        | Except.ok st' => imgLoop cfg env slug mkUrl msgPre b st' := by
  intro a
  induction a with
  | nil => intro b st; rfl
  | cons i rest ih =>
    intro b st
    show (match slideStep cfg env slug mkUrl msgPre i st with
      | Except.error e => Except.error e
      | Except.ok st' => imgLoop cfg env slug mkUrl msgPre (rest ++ b) st') = _
    rw [imgLoop_cons]
    cases slideStep cfg env slug mkUrl msgPre i st with
    | error e => rfl
    | ok st' => exact ih b st'

/-- Characterization of the slide loop on a run where the fallback image is
available and every save and upload succeeds: the loop cannot abort, each
slide records its CDN URL, the errors are exactly those of the slides whose
`try` body failed, each slide uploads its generated image or the normalized
fallback, and the last image stays in `img`. -/
theorem imgLoop_char (cfg : Config) (env : ImgEnv) (slug : String)
    (mkUrl : String → String) (msgPre : String) (fimg : PILImage)
    (hfb : fallbackImage cfg env = Except.ok fimg)
    (hsave : ∀ im, env.saveErr im = none)
    (hup : ∀ k, env.uploadErr k = none) (story0 : Story) :
    ∀ l : List Nat, ∀ st : ImgState,
      (∀ j : Nat, lookupKey st.story (altKeyStr j) = lookupKey story0 (altKeyStr j)) →
      imgLoop cfg env slug mkUrl msgPre l st =
        Except.ok ⟨l.foldl (fun s i => setKey s (imgKeyStr i) (mkUrl (slideKey cfg slug i)))
            st.story,
          st.errors ++ l.filterMap (expectedSlideErr env story0 msgPre),
          st.uploads ++ l.map (fun i => (slideKey cfg slug i, expectedSlideImg env story0 fimg i)),
          l.foldl (fun _ i => some (expectedSlideImg env story0 fimg i)) st.cur⟩ := by
  intro l
  induction l with
  | nil =>
    intro st _
    simp [imgLoop]
  | cons i rest ih =>
    intro st hst
    rw [imgLoop_cons]
    have hprompt : (lookupKey st.story (altKeyStr i)).getD "" =
        (lookupKey story0 (altKeyStr i)).getD "" := by rw [hst i]
    have h' : ∀ v : String, ∀ j : Nat,
        lookupKey (setKey st.story (imgKeyStr i) v) (altKeyStr j) =
          lookupKey story0 (altKeyStr j) := by
      intro v j
      rw [lookupKey_setKey_ne _ _ _ _ (imgKeyStr_ne_altKeyStr i j), hst j]
    rcases htry : tryGenImage env ((lookupKey story0 (altKeyStr i)).getD "") with e | img
    · have herr : expectedSlideErr env story0 msgPre i =
          some (msgPre ++ toString i ++ ": " ++ renderErr e) := by
        simp [expectedSlideErr, htry]
      have himg : expectedSlideImg env story0 fimg i = fimg := by
        simp [expectedSlideImg, htry]
      simp only [slideStep, hprompt, htry, hfb, hsave, hup]
      rw [ih ⟨setKey st.story (imgKeyStr i) (mkUrl (slideKey cfg slug i)),
        st.errors ++ [msgPre ++ toString i ++ ": " ++ renderErr e],
        st.uploads ++ [(slideKey cfg slug i, fimg)], some fimg⟩
        (h' (mkUrl (slideKey cfg slug i)))]
      simp only [List.foldl_cons, List.filterMap_cons, herr, himg, List.map_cons,
        List.append_assoc, List.singleton_append]
    · have herr : expectedSlideErr env story0 msgPre i = none := by
        simp [expectedSlideErr, htry]
      have himg : expectedSlideImg env story0 fimg i = img := by
        simp [expectedSlideImg, htry]
      simp only [slideStep, hprompt, htry, hsave, hup]
      rw [ih ⟨setKey st.story (imgKeyStr i) (mkUrl (slideKey cfg slug i)),
        st.errors, st.uploads ++ [(slideKey cfg slug i, img)], some img⟩
        (h' (mkUrl (slideKey cfg slug i)))]
      simp only [List.foldl_cons, List.filterMap_cons, herr, himg, List.map_cons,
        List.append_assoc, List.singleton_append]

/-- A run of the slide loop over slides whose `try` bodies, saves and
uploads all succeed completes without consulting the fallback and without
aborting, preserving the prompt fields. -/
theorem imgLoop_clean (cfg : Config) (env : ImgEnv) (slug : String)
    (mkUrl : String → String) (msgPre : String) (story0 : Story) :
    ∀ l : List Nat, ∀ st : ImgState,
      (∀ j : Nat, lookupKey st.story (altKeyStr j) = lookupKey story0 (altKeyStr j)) →
      (∀ j ∈ l, ∃ img, tryGenImage env ((lookupKey story0 (altKeyStr j)).getD "") =
          Except.ok img ∧
        env.saveErr img = none ∧ env.uploadErr (slideKey cfg slug j) = none) →
      ∃ st' : ImgState, imgLoop cfg env slug mkUrl msgPre l st = Except.ok st' ∧
        (∀ j : Nat, lookupKey st'.story (altKeyStr j) = lookupKey story0 (altKeyStr j)) := by
  intro l
  induction l with
  | nil =>
    intro st hst _
    exact ⟨st, rfl, hst⟩
  | cons i rest ih =>
    intro st hst hclean
    obtain ⟨img, htry, hsv, hupk⟩ := hclean i (by simp)
    have hprompt : (lookupKey st.story (altKeyStr i)).getD "" =
        (lookupKey story0 (altKeyStr i)).getD "" := by rw [hst i]
    rw [imgLoop_cons]
    simp only [slideStep, hprompt, htry, hsv, hupk]
    exact ih ⟨setKey st.story (imgKeyStr i) (mkUrl (slideKey cfg slug i)),
        st.errors, st.uploads ++ [(slideKey cfg slug i, img)], some img⟩
      (by
        intro j
        rw [lookupKey_setKey_ne _ _ _ _ (imgKeyStr_ne_altKeyStr i j), hst j])
      (fun j hj => hclean j (by simp [hj]))

/-- A filterMap over a duplicate-free list in which only `i` can produce a
value collapses to `i`'s contribution. -/
theorem filterMap_eq_of_unique (f : Nat → Option String) :
    ∀ l : List Nat, ∀ i : Nat, i ∈ l → l.Nodup → (∀ j ∈ l, j ≠ i → f j = none) →
      l.filterMap f = (f i).toList := by
  intro l
  induction l with
  | nil => intro i hi; cases hi
  | cons a rest ih =>
    intro i hi hnd hothers
    rcases List.mem_cons.mp hi with rfl | hi'
    · have hrest : ∀ j ∈ rest, f j = none := by
        intro j hj
        refine hothers j (by simp [hj]) ?_
        intro he
        exact (List.nodup_cons.mp hnd).1 (he ▸ hj)
      cases hfi : f i with
      | none =>
        rw [List.filterMap_cons_none hfi, List.filterMap_eq_nil_iff.mpr hrest]
        rfl
      | some m =>
        rw [List.filterMap_cons_some hfi, List.filterMap_eq_nil_iff.mpr hrest]
        rfl
    · have ha : f a = none := by
        refine hothers a (by simp) ?_
        intro he
        exact (List.nodup_cons.mp hnd).1 (he ▸ hi')
      rw [List.filterMap_cons_none ha]
      exact ih i hi' (List.nodup_cons.mp hnd).2
        (fun j hj hji => hothers j (by simp [hj]) hji)

/-- Evaluation of the cover step of `generate_images_and_upload` once the
slide loop has completed: the leftover `img` is re-encoded and uploaded
under the portrait-cover key and `portraitcoverurl` recorded. -/
theorem generate_images_and_upload_eq (cfg : Config) (env : ImgEnv) (story : Story)
    (title : String) (htitle : lookupKey story "storytitle" = some title)
    (st : ImgState) (img : PILImage)
    (hloop : imgLoop cfg env (slugAppSingle title) (fun key => cfg.cdnBase ++ key)
      "Image gen failed for slide " [1, 2, 3, 4, 5, 6] ⟨story, [], [], none⟩ =
      Except.ok st)
    (hcur : st.cur = some img) (hsv : env.saveErr img = none)
    (hupc : env.uploadErr (cfg.s3PrefixStr ++ "/" ++ slugAppSingle title ++
      "/portrait_cover.jpg") = none) :
    generate_images_and_upload cfg env story = Except.ok
      ⟨setKey st.story "portraitcoverurl"
          (cfg.cdnBase ++ (cfg.s3PrefixStr ++ "/" ++ slugAppSingle title ++
            "/portrait_cover.jpg")),
        st.errors,
        st.uploads ++ [(cfg.s3PrefixStr ++ "/" ++ slugAppSingle title ++
          "/portrait_cover.jpg", img)],
        some img⟩ := by
  obtain ⟨sstory, serrs, sups, scur⟩ := st
  cases hcur
  simp only [generate_images_and_upload, dictGetE, htitle, hloop, hsv, hupc]

/-- C3: a failure while requesting, fetching, decoding or normalizing the
generated image of slide `i` does not abort the pipeline, provided the
configured fallback image can be fetched and decoded and the encoding and
uploads succeed: a per-slide error is shown for slide `i` only, the
fallback image is substituted, normalized to RGB 720x1200 like a generated
image, `s{i}image1` is still recorded, and every other slide (the later
ones included) is still processed and recorded — in both variants. -/
theorem image_pipeline_fallback (cfg : Config) (env : ImgEnv) (story : Story)
    (title : String) (htitle : lookupKey story "storytitle" = some title)
    (fb : Nat) (raw : PILImage)
    (hfb : env.fallback cfg.defaultErrorImage = Except.ok fb)
    (hdec : env.decode fb = Except.ok raw)
    (hsave : ∀ im, env.saveErr im = none)
    (hup : ∀ k, env.uploadErr k = none)
    (i : Nat) (hi : i ∈ [1, 2, 3, 4, 5, 6]) (e : PyErr)
    (hfail : tryGenImage env ((lookupKey story (altKeyStr i)).getD "") = Except.error e)
    (hok : ∀ j ∈ [1, 2, 3, 4, 5, 6], j ≠ i →
      ∃ img, tryGenImage env ((lookupKey story (altKeyStr j)).getD "") = Except.ok img) :
    (∃ st : ImgState, generate_images cfg env story = Except.ok st ∧
      (∀ j ∈ [1, 2, 3, 4, 5, 6], lookupKey st.story (imgKeyStr j) =
        some (cfg.cdnBase ++ "/" ++ slideKey cfg (slugApp title) j)) ∧
      st.errors = ["Image gen failed slide " ++ toString i ++ ": " ++ renderErr e] ∧
      (slideKey cfg (slugApp title) i, (raw.convert "RGB").resize 720 1200) ∈ st.uploads) ∧
    (∃ st : ImgState, generate_images_and_upload cfg env story = Except.ok st ∧
      (∀ j ∈ [1, 2, 3, 4, 5, 6], lookupKey st.story (imgKeyStr j) =
        some (cfg.cdnBase ++ slideKey cfg (slugAppSingle title) j)) ∧
      st.errors = ["Image gen failed for slide " ++ toString i ++ ": " ++ renderErr e] ∧
      (slideKey cfg (slugAppSingle title) i, (raw.convert "RGB").resize 720 1200) ∈ st.uploads) := by
  have hfbimg : fallbackImage cfg env = Except.ok ((raw.convert "RGB").resize 720 1200) := by
    simp [fallbackImage, hfb, hdec]
  have himgi : expectedSlideImg env story ((raw.convert "RGB").resize 720 1200) i =
      (raw.convert "RGB").resize 720 1200 := by
    simp [expectedSlideImg, hfail]
  have herrs : ∀ msgPre : String,
      [1, 2, 3, 4, 5, 6].filterMap (expectedSlideErr env story msgPre) =
        [msgPre ++ toString i ++ ": " ++ renderErr e] := by
    intro msgPre
    rw [filterMap_eq_of_unique (expectedSlideErr env story msgPre) [1, 2, 3, 4, 5, 6] i hi
      (by decide)
      (by
        intro j hj hji
        obtain ⟨img, hj2⟩ := hok j hj hji
        simp [expectedSlideErr, hj2])]
    simp [expectedSlideErr, hfail]
  constructor
  · have hrun := imgLoop_char cfg env (slugApp title) (fun key => cfg.cdnBase ++ "/" ++ key)
      "Image gen failed slide " ((raw.convert "RGB").resize 720 1200) hfbimg hsave hup
      story [1, 2, 3, 4, 5, 6] ⟨story, [], [], none⟩ (fun _ => rfl)
    have hgen : generate_images cfg env story =
        imgLoop cfg env (slugApp title) (fun key => cfg.cdnBase ++ "/" ++ key)
          "Image gen failed slide " [1, 2, 3, 4, 5, 6] ⟨story, [], [], none⟩ := by
      simp only [generate_images, dictGetE, htitle]
    refine ⟨_, hgen.trans hrun, ?_, ?_, ?_⟩
    · intro j hj
      exact lookupKey_foldl_setKey imgKeyStr
        (fun j => cfg.cdnBase ++ "/" ++ slideKey cfg (slugApp title) j)
        [1, 2, 3, 4, 5, 6] story j hj (by decide)
    · show [] ++ [1, 2, 3, 4, 5, 6].filterMap _ = _
      rw [List.nil_append, herrs]
    · show _ ∈ [] ++ [1, 2, 3, 4, 5, 6].map _
      rw [List.nil_append]
      rw [show (slideKey cfg (slugApp title) i, (raw.convert "RGB").resize 720 1200) =
          (slideKey cfg (slugApp title) i,
            expectedSlideImg env story ((raw.convert "RGB").resize 720 1200) i) from by
        rw [himgi]]
      exact List.mem_map_of_mem _ hi
  · have hrun := imgLoop_char cfg env (slugAppSingle title) (fun key => cfg.cdnBase ++ key)
      "Image gen failed for slide " ((raw.convert "RGB").resize 720 1200) hfbimg hsave hup
      story [1, 2, 3, 4, 5, 6] ⟨story, [], [], none⟩ (fun _ => rfl)
    have hgen2 := generate_images_and_upload_eq cfg env story title htitle _
      (expectedSlideImg env story ((raw.convert "RGB").resize 720 1200) 6) hrun rfl
      (hsave _) (hup _)
    refine ⟨_, hgen2, ?_, ?_, ?_⟩
    · intro j hj
      have hne : ("portraitcoverurl" : String) ≠ imgKeyStr j := by
        fin_cases hj <;> decide
      show lookupKey (setKey _ "portraitcoverurl" _) (imgKeyStr j) = _
      rw [lookupKey_setKey_ne _ _ _ _ hne]
      exact lookupKey_foldl_setKey imgKeyStr
        (fun j => cfg.cdnBase ++ slideKey cfg (slugAppSingle title) j)
        [1, 2, 3, 4, 5, 6] story j hj (by decide)
    · show [] ++ [1, 2, 3, 4, 5, 6].filterMap _ = _
      rw [List.nil_append, herrs]
    · refine List.mem_append.mpr (Or.inl ?_)
      show _ ∈ [] ++ [1, 2, 3, 4, 5, 6].map _
      rw [List.nil_append]
      rw [show (slideKey cfg (slugAppSingle title) i, (raw.convert "RGB").resize 720 1200) =
          (slideKey cfg (slugAppSingle title) i,
            expectedSlideImg env story ((raw.convert "RGB").resize 720 1200) i) from by
        rw [himgi]]
      exact List.mem_map_of_mem _ hi

/-- C7: in the `app-single.py` variant only, after the six-slide loop
completes, the image object left in memory from the last loop iteration —
slide 6's image, whether generated or the fallback — is re-encoded as JPEG
and uploaded a second time under `{prefix}/{slug}/portrait_cover.jpg`, and
its CDN URL is recorded as `portraitcoverurl`; no fresh cover image is
generated: the cover upload carries exactly the image of slide 6's
upload. -/
theorem portrait_cover_reuses_last_image (cfg : Config) (env : ImgEnv) (story : Story)
    (title : String) (htitle : lookupKey story "storytitle" = some title)
    (fb : Nat) (raw : PILImage)
    (hfb : env.fallback cfg.defaultErrorImage = Except.ok fb)
    (hdec : env.decode fb = Except.ok raw)
    (hsave : ∀ im, env.saveErr im = none)
    (hup : ∀ k, env.uploadErr k = none) :
    ∃ st : ImgState, generate_images_and_upload cfg env story = Except.ok st ∧
      st.uploads = [1, 2, 3, 4, 5, 6].map (fun j => (slideKey cfg (slugAppSingle title) j,
          expectedSlideImg env story ((raw.convert "RGB").resize 720 1200) j)) ++
        [(cfg.s3PrefixStr ++ "/" ++ slugAppSingle title ++ "/portrait_cover.jpg",
          expectedSlideImg env story ((raw.convert "RGB").resize 720 1200) 6)] ∧
      lookupKey st.story "portraitcoverurl" =
        some (cfg.cdnBase ++ (cfg.s3PrefixStr ++ "/" ++ slugAppSingle title ++
          "/portrait_cover.jpg")) := by
  have hfbimg : fallbackImage cfg env = Except.ok ((raw.convert "RGB").resize 720 1200) := by
    simp [fallbackImage, hfb, hdec]
  have hrun := imgLoop_char cfg env (slugAppSingle title) (fun key => cfg.cdnBase ++ key)
    "Image gen failed for slide " ((raw.convert "RGB").resize 720 1200) hfbimg hsave hup
    story [1, 2, 3, 4, 5, 6] ⟨story, [], [], none⟩ (fun _ => rfl)
  have hgen2 := generate_images_and_upload_eq cfg env story title htitle _
    (expectedSlideImg env story ((raw.convert "RGB").resize 720 1200) 6) hrun rfl
    (hsave _) (hup _)
  refine ⟨_, hgen2, ?_, ?_⟩
  · show ([] ++ [1, 2, 3, 4, 5, 6].map _) ++ [_] = _
    rw [List.nil_append]
  · exact lookupKey_setKey_self _ _ _

/-- C10: exceptions in the per-slide fallback branch and in the encode and
upload steps are not caught, so they abort the whole run: if slide `i`'s
generation failed and fetching or decoding the configured fallback image
fails, or if the JPEG encoding or the S3 upload of slide `i`'s image fails,
the exception propagates out of the image stage, in both variants (the
other slides assumed clean). -/
theorem image_pipeline_uncaught (cfg : Config) (env : ImgEnv) (story : Story)
    (title : String) (htitle : lookupKey story "storytitle" = some title)
    (i : Nat) (hi : i ∈ [1, 2, 3, 4, 5, 6])
    (hclean : ∀ j ∈ [1, 2, 3, 4, 5, 6], j ≠ i →
      ∃ img, tryGenImage env ((lookupKey story (altKeyStr j)).getD "") = Except.ok img ∧
        env.saveErr img = none ∧
        env.uploadErr (slideKey cfg (slugApp title) j) = none ∧
        env.uploadErr (slideKey cfg (slugAppSingle title) j) = none) :
    (∀ e0 e : PyErr,
      tryGenImage env ((lookupKey story (altKeyStr i)).getD "") = Except.error e0 →
      fallbackImage cfg env = Except.error e →
      generate_images cfg env story = Except.error e ∧
        generate_images_and_upload cfg env story = Except.error e) ∧
    (∀ img : PILImage, ∀ e : PyErr,
      tryGenImage env ((lookupKey story (altKeyStr i)).getD "") = Except.ok img →
      env.saveErr img = some e →
      generate_images cfg env story = Except.error e ∧
        generate_images_and_upload cfg env story = Except.error e) ∧
    (∀ img : PILImage, ∀ e₁ e₂ : PyErr,
      tryGenImage env ((lookupKey story (altKeyStr i)).getD "") = Except.ok img →
      env.saveErr img = none →
      env.uploadErr (slideKey cfg (slugApp title) i) = some e₁ →
      env.uploadErr (slideKey cfg (slugAppSingle title) i) = some e₂ →
      generate_images cfg env story = Except.error e₁ ∧
        generate_images_and_upload cfg env story = Except.error e₂) := by
  obtain ⟨pre, post, hdecomp⟩ := List.append_of_mem hi
  have hnodup : (pre ++ i :: post).Nodup := by
    rw [← hdecomp]
    decide
  have hinotpre : i ∉ pre := fun hip =>
    (List.nodup_append.mp hnodup).2.2 hip (List.mem_cons_self i post)
  have hsubpre : ∀ j ∈ pre, j ∈ [1, 2, 3, 4, 5, 6] := by
    intro j hj
    rw [hdecomp]
    exact List.mem_append.mpr (Or.inl hj)
  have habort : ∀ slug : String, ∀ mkUrl : String → String, ∀ msgPre : String, ∀ e : PyErr,
      (∀ j ∈ pre, env.uploadErr (slideKey cfg slug j) = none) →
      (∀ st : ImgState,
        (∀ jj : Nat, lookupKey st.story (altKeyStr jj) = lookupKey story (altKeyStr jj)) →
        slideStep cfg env slug mkUrl msgPre i st = Except.error e) →
      imgLoop cfg env slug mkUrl msgPre [1, 2, 3, 4, 5, 6] ⟨story, [], [], none⟩ =
        Except.error e := by
    intro slug mkUrl msgPre e hupPre hstepfail
    rw [hdecomp, imgLoop_append]
    obtain ⟨st', hrun, hst'⟩ := imgLoop_clean cfg env slug mkUrl msgPre story pre
      ⟨story, [], [], none⟩ (fun _ => rfl)
      (fun j hj => by
        obtain ⟨img, h1, h2, _, _⟩ := hclean j (hsubpre j hj)
          (fun he => hinotpre (he ▸ hj))
        exact ⟨img, h1, h2, hupPre j hj⟩)
    simp only [hrun]
    rw [imgLoop_cons, hstepfail st' hst']
  refine ⟨?_, ?_, ?_⟩
  · intro e0 e htry hfbf
    have hupPre1 : ∀ j ∈ pre, env.uploadErr (slideKey cfg (slugApp title) j) = none := by
      intro j hj
      obtain ⟨img, _, _, h3, _⟩ := hclean j (hsubpre j hj) (fun he => hinotpre (he ▸ hj))
      exact h3
    have hupPre2 : ∀ j ∈ pre, env.uploadErr (slideKey cfg (slugAppSingle title) j) = none := by
      intro j hj
      obtain ⟨img, _, _, _, h4⟩ := hclean j (hsubpre j hj) (fun he => hinotpre (he ▸ hj))
      exact h4
    have hstep : ∀ slug : String, ∀ mkUrl : String → String, ∀ msgPre : String,
        ∀ st : ImgState,
        (∀ jj : Nat, lookupKey st.story (altKeyStr jj) = lookupKey story (altKeyStr jj)) →
        slideStep cfg env slug mkUrl msgPre i st = Except.error e := by
      intro slug mkUrl msgPre st hst
      have hprompt : (lookupKey st.story (altKeyStr i)).getD "" =
          (lookupKey story (altKeyStr i)).getD "" := by rw [hst i]
      simp only [slideStep, hprompt, htry, hfbf]
    have h1 := habort (slugApp title) (fun key => cfg.cdnBase ++ "/" ++ key)
      "Image gen failed slide " e hupPre1 (hstep _ _ _)
    have h2 := habort (slugAppSingle title) (fun key => cfg.cdnBase ++ key)
      "Image gen failed for slide " e hupPre2 (hstep _ _ _)
    constructor
    · simp only [generate_images, dictGetE, htitle, h1]
    · simp only [generate_images_and_upload, dictGetE, htitle, h2]
  · intro img e htry hsaveE
    have hupPre1 : ∀ j ∈ pre, env.uploadErr (slideKey cfg (slugApp title) j) = none := by
      intro j hj
      obtain ⟨img', _, _, h3, _⟩ := hclean j (hsubpre j hj) (fun he => hinotpre (he ▸ hj))
      exact h3
    have hupPre2 : ∀ j ∈ pre, env.uploadErr (slideKey cfg (slugAppSingle title) j) = none := by
      intro j hj
      obtain ⟨img', _, _, _, h4⟩ := hclean j (hsubpre j hj) (fun he => hinotpre (he ▸ hj))
      exact h4
    have hstep : ∀ slug : String, ∀ mkUrl : String → String, ∀ msgPre : String,
        ∀ st : ImgState,
        (∀ jj : Nat, lookupKey st.story (altKeyStr jj) = lookupKey story (altKeyStr jj)) →
        slideStep cfg env slug mkUrl msgPre i st = Except.error e := by
      intro slug mkUrl msgPre st hst
      have hprompt : (lookupKey st.story (altKeyStr i)).getD "" =
          (lookupKey story (altKeyStr i)).getD "" := by rw [hst i]
      simp only [slideStep, hprompt, htry, hsaveE]
    have h1 := habort (slugApp title) (fun key => cfg.cdnBase ++ "/" ++ key)
      "Image gen failed slide " e hupPre1 (hstep _ _ _)
    have h2 := habort (slugAppSingle title) (fun key => cfg.cdnBase ++ key)
      "Image gen failed for slide " e hupPre2 (hstep _ _ _)
    constructor
    · simp only [generate_images, dictGetE, htitle, h1]
    · simp only [generate_images_and_upload, dictGetE, htitle, h2]
  · intro img e₁ e₂ htry hsv hupE1 hupE2
    have hupPre1 : ∀ j ∈ pre, env.uploadErr (slideKey cfg (slugApp title) j) = none := by
      intro j hj
      obtain ⟨img', _, _, h3, _⟩ := hclean j (hsubpre j hj) (fun he => hinotpre (he ▸ hj))
      exact h3
    have hupPre2 : ∀ j ∈ pre, env.uploadErr (slideKey cfg (slugAppSingle title) j) = none := by
      intro j hj
      obtain ⟨img', _, _, _, h4⟩ := hclean j (hsubpre j hj) (fun he => hinotpre (he ▸ hj))
      exact h4
    have hstep1 : ∀ st : ImgState,
        (∀ jj : Nat, lookupKey st.story (altKeyStr jj) = lookupKey story (altKeyStr jj)) →
        slideStep cfg env (slugApp title) (fun key => cfg.cdnBase ++ "/" ++ key)
          "Image gen failed slide " i st = Except.error e₁ := by
      intro st hst
      have hprompt : (lookupKey st.story (altKeyStr i)).getD "" =
          (lookupKey story (altKeyStr i)).getD "" := by rw [hst i]
      simp only [slideStep, hprompt, htry, hsv, hupE1]
    have hstep2 : ∀ st : ImgState,
        (∀ jj : Nat, lookupKey st.story (altKeyStr jj) = lookupKey story (altKeyStr jj)) →
        slideStep cfg env (slugAppSingle title) (fun key => cfg.cdnBase ++ key)
          "Image gen failed for slide " i st = Except.error e₂ := by
      intro st hst
      have hprompt : (lookupKey st.story (altKeyStr i)).getD "" =
          (lookupKey story (altKeyStr i)).getD "" := by rw [hst i]
      simp only [slideStep, hprompt, htry, hsv, hupE2]
    have h1 := habort (slugApp title) (fun key => cfg.cdnBase ++ "/" ++ key)
      "Image gen failed slide " e₁ hupPre1 hstep1
    have h2 := habort (slugAppSingle title) (fun key => cfg.cdnBase ++ key)
      "Image gen failed for slide " e₂ hupPre2 hstep2
    constructor
    · simp only [generate_images, dictGetE, htitle, h1]
    · simp only [generate_images_and_upload, dictGetE, htitle, h2]

/-- Witness for C4 on a fully populated record with an always-succeeding
environment. -/
theorem synthesize_audio_fields_witness :
    (∀ key, envW.uploadErr key = none) ∧
    (∀ p ∈ audioMapping, p.2 ∉ keysOf storyW) ∧
    synthesize_audio cfgW envW storyW =
      Except.ok (storyW ++ audioExpectedApp cfgW envW audioMapping storyW 0,
        audioCdnExpectedApp cfgW envW audioMapping storyW 0) :=
  ⟨fun _ => rfl, by decide,
    (synthesize_audio_fields cfgW envW storyW (fun _ => rfl) (by decide)).1.1⟩

/-- Every key of a record resolves to a value. -/
theorem lookupKey_isSome_of_mem (s : Story) (k : String) (h : k ∈ keysOf s) :
    ∃ v, lookupKey s k = some v := by
  induction s with
  | nil => cases h
  | cons p rest ih =>
    obtain ⟨k₀, v₀⟩ := p
    by_cases h0 : k₀ = k
    · refine ⟨v₀, ?_⟩
      show (if k₀ = k then some v₀ else lookupKey rest k) = some v₀
      rw [if_pos h0]
    · have hr : k ∈ keysOf rest := by
        have h' : k ∈ k₀ :: keysOf rest := h
        rcases List.mem_cons.mp h' with h1 | h1
        · exact absurd h1.symm h0
        · exact h1
      obtain ⟨v, hv⟩ := ih hr
      refine ⟨v, ?_⟩
      show (if k₀ = k then some v₀ else lookupKey rest k) = some v
      rw [if_neg h0, hv]

/-- Lookup of a key of the left part of a concatenation is unchanged. -/
theorem lookupKey_append_left_of_mem (s t : Story) (k : String) (h : k ∈ keysOf s) :
    lookupKey (s ++ t) k = lookupKey s k := by
  obtain ⟨v, hv⟩ := lookupKey_isSome_of_mem s k h
  rw [lookupKey_append, hv]

/-- `dict.update` with fresh, duplicate-free keys appends the entries. -/
theorem dictUpdate_disjoint :
    ∀ seo story : Story, (∀ k ∈ keysOf seo, k ∉ keysOf story) → (keysOf seo).Nodup →
      dictUpdate story seo = story ++ seo := by
  intro seo
  induction seo with
  | nil => intro story _ _; simp [dictUpdate]
  | cons p rest ih =>
    intro story hdisj hnd
    obtain ⟨k, v⟩ := p
    have hk : k ∉ keysOf story := hdisj k (by simp [keysOf])
    have hnd' : (k :: keysOf rest).Nodup := hnd
    show dictUpdate (setKey story k v) rest = _
    rw [setKey_not_mem story k v hk, ih (story ++ [(k, v)])
      (by
        intro k' hk'
        rw [keysOf_append]
        intro hmem
        rcases List.mem_append.mp hmem with h1 | h1
        · exact hdisj k' (by simp [keysOf, hk']) h1
        · have he : k' = k := by simpa [keysOf] using h1
          exact (List.nodup_cons.mp hnd').1 (he ▸ hk'))
      (List.nodup_cons.mp hnd').2]
    simp [List.append_assoc]

/-- C8: each Story-transforming stage only adds fields.  The SEO merge
(`story.update(seo)`) with fresh parsed keys appends the entries; the image
stage appends `s1image1`..`s6image1` — in the `app-single.py` variant also
`portraitcoverurl` — and the narration stage appends the audio fields; in
each case every key of the input record keeps its original string value
(all values are strings by the record's type throughout the modelled
pipeline). -/
theorem story_record_append_only (cfg : Config) :
    (∀ story seo : Story, (∀ k ∈ keysOf seo, k ∉ keysOf story) → (keysOf seo).Nodup →
      dictUpdate story seo = story ++ seo ∧
      ∀ k ∈ keysOf story, lookupKey (dictUpdate story seo) k = lookupKey story k) ∧
    (∀ env : ImgEnv, ∀ story : Story, ∀ title : String, ∀ fb : Nat, ∀ raw : PILImage,
      lookupKey story "storytitle" = some title →
      env.fallback cfg.defaultErrorImage = Except.ok fb →
      env.decode fb = Except.ok raw →
      (∀ im, env.saveErr im = none) →
      (∀ k, env.uploadErr k = none) →
      (∀ j ∈ [1, 2, 3, 4, 5, 6], imgKeyStr j ∉ keysOf story) →
      ∃ st : ImgState, generate_images cfg env story = Except.ok st ∧
        st.story = story ++ [1, 2, 3, 4, 5, 6].map (fun j => (imgKeyStr j,
          cfg.cdnBase ++ "/" ++ slideKey cfg (slugApp title) j)) ∧
        ∀ k ∈ keysOf story, lookupKey st.story k = lookupKey story k) ∧
    (∀ env : ImgEnv, ∀ story : Story, ∀ title : String, ∀ fb : Nat, ∀ raw : PILImage,
      lookupKey story "storytitle" = some title →
      env.fallback cfg.defaultErrorImage = Except.ok fb →
      env.decode fb = Except.ok raw →
      (∀ im, env.saveErr im = none) →
      (∀ k, env.uploadErr k = none) →
      (∀ j ∈ [1, 2, 3, 4, 5, 6], imgKeyStr j ∉ keysOf story) →
      "portraitcoverurl" ∉ keysOf story →
      ∃ st : ImgState, generate_images_and_upload cfg env story = Except.ok st ∧
        st.story = story ++ [1, 2, 3, 4, 5, 6].map (fun j => (imgKeyStr j,
            cfg.cdnBase ++ slideKey cfg (slugAppSingle title) j)) ++
          [("portraitcoverurl", cfg.cdnBase ++ (cfg.s3PrefixStr ++ "/" ++
            slugAppSingle title ++ "/portrait_cover.jpg"))] ∧
        ∀ k ∈ keysOf story, lookupKey st.story k = lookupKey story k) ∧
    (∀ env : AudioEnv, ∀ story : Story,
      (∀ key, env.uploadErr key = none) →
      (∀ p ∈ audioMapping, p.2 ∉ keysOf story) →
      ∃ out : Story × Story, synthesize_audio cfg env story = Except.ok out ∧
        out.1 = story ++ audioExpectedApp cfg env audioMapping story 0 ∧
        ∀ k ∈ keysOf story, lookupKey out.1 k = lookupKey story k) := by
  refine ⟨?_, ?_, ?_, ?_⟩
  · intro story seo hdisj hnd
    have he := dictUpdate_disjoint seo story hdisj hnd
    refine ⟨he, ?_⟩
    intro k hk
    rw [he, lookupKey_append_left_of_mem story seo k hk]
  · intro env story title fb raw htitle hfb hdec hsave hup hfresh
    have hfbimg : fallbackImage cfg env = Except.ok ((raw.convert "RGB").resize 720 1200) := by
      simp [fallbackImage, hfb, hdec]
    have hrun := imgLoop_char cfg env (slugApp title) (fun key => cfg.cdnBase ++ "/" ++ key)
      "Image gen failed slide " ((raw.convert "RGB").resize 720 1200) hfbimg hsave hup
      story [1, 2, 3, 4, 5, 6] ⟨story, [], [], none⟩ (fun _ => rfl)
    have hgen : generate_images cfg env story =
        imgLoop cfg env (slugApp title) (fun key => cfg.cdnBase ++ "/" ++ key)
          "Image gen failed slide " [1, 2, 3, 4, 5, 6] ⟨story, [], [], none⟩ := by
      simp only [generate_images, dictGetE, htitle]
    have happ := foldl_setKey_eq_append imgKeyStr
      (fun j => cfg.cdnBase ++ "/" ++ slideKey cfg (slugApp title) j)
      [1, 2, 3, 4, 5, 6] story hfresh (by decide)
    refine ⟨_, hgen.trans hrun, ?_, ?_⟩
    · exact happ
    · intro k hk
      exact lookupKey_foldl_setKey_ne imgKeyStr
        (fun j => cfg.cdnBase ++ "/" ++ slideKey cfg (slugApp title) j)
        [1, 2, 3, 4, 5, 6] story k
        (fun j hj he => hfresh j hj (he ▸ hk))
  · intro env story title fb raw htitle hfb hdec hsave hup hfresh hpc
    have hfbimg : fallbackImage cfg env = Except.ok ((raw.convert "RGB").resize 720 1200) := by
      simp [fallbackImage, hfb, hdec]
    have hrun := imgLoop_char cfg env (slugAppSingle title) (fun key => cfg.cdnBase ++ key)
      "Image gen failed for slide " ((raw.convert "RGB").resize 720 1200) hfbimg hsave hup
      story [1, 2, 3, 4, 5, 6] ⟨story, [], [], none⟩ (fun _ => rfl)
    have hgen2 := generate_images_and_upload_eq cfg env story title htitle _
      (expectedSlideImg env story ((raw.convert "RGB").resize 720 1200) 6) hrun rfl
      (hsave _) (hup _)
    have happ : [1, 2, 3, 4, 5, 6].foldl
        (fun s i => setKey s (imgKeyStr i) (cfg.cdnBase ++ slideKey cfg (slugAppSingle title) i))
        story = story ++ [1, 2, 3, 4, 5, 6].map (fun j => (imgKeyStr j,
          cfg.cdnBase ++ slideKey cfg (slugAppSingle title) j)) :=
      foldl_setKey_eq_append imgKeyStr
        (fun j => cfg.cdnBase ++ slideKey cfg (slugAppSingle title) j)
        [1, 2, 3, 4, 5, 6] story hfresh (by decide)
    have hkm : keysOf ([1, 2, 3, 4, 5, 6].map (fun j => (imgKeyStr j,
        cfg.cdnBase ++ slideKey cfg (slugAppSingle title) j))) =
        [1, 2, 3, 4, 5, 6].map imgKeyStr := rfl
    have hnm : ("portraitcoverurl" : String) ∉
        keysOf (story ++ [1, 2, 3, 4, 5, 6].map (fun j => (imgKeyStr j,
          cfg.cdnBase ++ slideKey cfg (slugAppSingle title) j))) := by
      rw [keysOf_append, hkm]
      intro hmem
      rcases List.mem_append.mp hmem with h1 | h1
      · exact hpc h1
      · exact absurd h1 (by decide)
    refine ⟨_, hgen2, ?_, ?_⟩
    · exact (congrArg (fun s => setKey s "portraitcoverurl"
          (cfg.cdnBase ++ (cfg.s3PrefixStr ++ "/" ++ slugAppSingle title ++
            "/portrait_cover.jpg"))) happ).trans
        (setKey_not_mem _ "portraitcoverurl" _ hnm)
    · intro k hk
      have hne : ("portraitcoverurl" : String) ≠ k := fun he => hpc (he ▸ hk)
      show lookupKey (setKey _ "portraitcoverurl" _) k = lookupKey story k
      rw [lookupKey_setKey_ne _ _ _ _ hne]
      exact lookupKey_foldl_setKey_ne imgKeyStr
        (fun j => cfg.cdnBase ++ slideKey cfg (slugAppSingle title) j)
        [1, 2, 3, 4, 5, 6] story k (fun j hj he => hfresh j hj (he ▸ hk))
  · intro env story hup hfresh
    obtain ⟨m, hm⟩ := audioLoopApp_char cfg env hup audioMapping story [] 0 hfresh
      (by intro p _; simp [keysOf]) (by decide) (by decide) (by decide)
    rw [List.nil_append] at hm
    have hs : synthesize_audio cfg env story = Except.ok
        (story ++ audioExpectedApp cfg env audioMapping story 0,
          audioCdnExpectedApp cfg env audioMapping story 0) := by
      unfold synthesize_audio
      rw [hm]
    refine ⟨_, hs, rfl, ?_⟩
    intro k hk
    exact lookupKey_append_left_of_mem story _ k hk

/-- Witness for C8 on the merge of the parsed SEO record into a narrative
record, and on the `app-single.py` image stage (which also appends
`portraitcoverurl`) run in a concrete environment. -/
theorem story_record_append_only_witness :
    ((∀ k ∈ keysOf [("metadescription", "d"), ("metakeywords", "k")], k ∉ keysOf storyW) ∧
      (keysOf [("metadescription", "d"), ("metakeywords", "k")]).Nodup ∧
      (∀ j ∈ [1, 2, 3, 4, 5, 6], imgKeyStr j ∉ keysOf storyW) ∧
      "portraitcoverurl" ∉ keysOf storyW) ∧
    dictUpdate storyW [("metadescription", "d"), ("metakeywords", "k")] =
      storyW ++ [("metadescription", "d"), ("metakeywords", "k")] ∧
    (∃ st : ImgState, generate_images_and_upload cfgW imgEnvFailW storyW = Except.ok st ∧
      st.story = storyW ++ [1, 2, 3, 4, 5, 6].map (fun j => (imgKeyStr j,
          cfgW.cdnBase ++ slideKey cfgW (slugAppSingle "T") j)) ++
        [("portraitcoverurl", cfgW.cdnBase ++ (cfgW.s3PrefixStr ++ "/" ++
          slugAppSingle "T" ++ "/portrait_cover.jpg"))] ∧
      ∀ k ∈ keysOf storyW, lookupKey st.story k = lookupKey storyW k) :=
  ⟨⟨by decide, by decide, by decide, by decide⟩,
    ((story_record_append_only cfgW).1 storyW [("metadescription", "d"), ("metakeywords", "k")]
      (by decide) (by decide)).1,
    (story_record_append_only cfgW).2.2.1 imgEnvFailW storyW "T" 77 ⟨"RGBA", 1024, 1024, 77⟩
      rfl rfl rfl (fun _ => rfl) (fun _ => rfl) (by decide) (by decide)⟩

/-- Witness for C3: slide 3's generation fails in a concrete environment;
the run completes, records all six image fields, shows exactly one error
and uploads the normalized fallback for slide 3. -/
theorem image_pipeline_fallback_witness :
    (lookupKey storyW "storytitle" = some "T" ∧
      imgEnvFailW.fallback cfgW.defaultErrorImage = Except.ok 77 ∧
      imgEnvFailW.decode 77 = Except.ok ⟨"RGBA", 1024, 1024, 77⟩ ∧
      tryGenImage imgEnvFailW ((lookupKey storyW (altKeyStr 3)).getD "") =
        Except.error (PyErr.exn "boom")) ∧
    (∃ st : ImgState, generate_images cfgW imgEnvFailW storyW = Except.ok st ∧
      (∀ j ∈ [1, 2, 3, 4, 5, 6], lookupKey st.story (imgKeyStr j) =
        some (cfgW.cdnBase ++ "/" ++ slideKey cfgW (slugApp "T") j)) ∧
      st.errors = ["Image gen failed slide " ++ toString 3 ++ ": " ++
        renderErr (PyErr.exn "boom")] ∧
      (slideKey cfgW (slugApp "T") 3,
        ((⟨"RGBA", 1024, 1024, 77⟩ : PILImage).convert "RGB").resize 720 1200) ∈ st.uploads) :=
  ⟨⟨rfl, rfl, rfl, rfl⟩,
    (image_pipeline_fallback cfgW imgEnvFailW storyW "T" rfl 77 ⟨"RGBA", 1024, 1024, 77⟩
      rfl rfl (fun _ => rfl) (fun _ => rfl) 3 (by decide) (PyErr.exn "boom") rfl
      (by
        intro j hj hne
        fin_cases hj
        · exact ⟨⟨"RGB", 720, 1200, 3⟩, rfl⟩
        · exact ⟨⟨"RGB", 720, 1200, 3⟩, rfl⟩
        · exact absurd rfl hne
        · exact ⟨⟨"RGB", 720, 1200, 3⟩, rfl⟩
        · exact ⟨⟨"RGB", 720, 1200, 3⟩, rfl⟩
        · exact ⟨⟨"RGB", 720, 1200, 3⟩, rfl⟩)).1⟩

/-- Witness for C7 in the same concrete environment. -/
theorem portrait_cover_reuses_last_image_witness :
    (lookupKey storyW "storytitle" = some "T") ∧
    (∃ st : ImgState, generate_images_and_upload cfgW imgEnvFailW storyW = Except.ok st ∧
      st.uploads = [1, 2, 3, 4, 5, 6].map (fun j => (slideKey cfgW (slugAppSingle "T") j,
          expectedSlideImg imgEnvFailW storyW
            (((⟨"RGBA", 1024, 1024, 77⟩ : PILImage).convert "RGB").resize 720 1200) j)) ++
        [(cfgW.s3PrefixStr ++ "/" ++ slugAppSingle "T" ++ "/portrait_cover.jpg",
          expectedSlideImg imgEnvFailW storyW
            (((⟨"RGBA", 1024, 1024, 77⟩ : PILImage).convert "RGB").resize 720 1200) 6)] ∧
      lookupKey st.story "portraitcoverurl" = some (cfgW.cdnBase ++ (cfgW.s3PrefixStr ++ "/" ++
        slugAppSingle "T" ++ "/portrait_cover.jpg"))) :=
  ⟨rfl, portrait_cover_reuses_last_image cfgW imgEnvFailW storyW "T" rfl 77
    ⟨"RGBA", 1024, 1024, 77⟩ rfl rfl (fun _ => rfl) (fun _ => rfl)⟩

/-- Witness for C10: in a concrete environment where slide 3's generation
fails and the fallback fetch fails too, both variants abort with the
fallback exception. -/
theorem image_pipeline_uncaught_witness :
    (tryGenImage imgEnvFbFailW ((lookupKey storyW (altKeyStr 3)).getD "") =
        Except.error (PyErr.exn "boom") ∧
      fallbackImage cfgW imgEnvFbFailW = Except.error (PyErr.exn "fallback down")) ∧
    (generate_images cfgW imgEnvFbFailW storyW = Except.error (PyErr.exn "fallback down") ∧
      generate_images_and_upload cfgW imgEnvFbFailW storyW =
        Except.error (PyErr.exn "fallback down")) :=
  ⟨⟨rfl, rfl⟩,
    (image_pipeline_uncaught cfgW imgEnvFbFailW storyW "T" rfl 3 (by decide)
      (by
        intro j hj hne
        fin_cases hj
        · exact ⟨⟨"RGB", 720, 1200, 3⟩, rfl, rfl, rfl, rfl⟩
        · exact ⟨⟨"RGB", 720, 1200, 3⟩, rfl, rfl, rfl, rfl⟩
        · exact absurd rfl hne
        · exact ⟨⟨"RGB", 720, 1200, 3⟩, rfl, rfl, rfl, rfl⟩
        · exact ⟨⟨"RGB", 720, 1200, 3⟩, rfl, rfl, rfl, rfl⟩
        · exact ⟨⟨"RGB", 720, 1200, 3⟩, rfl, rfl, rfl, rfl⟩)).1
      (PyErr.exn "boom") (PyErr.exn "fallback down") rfl rfl⟩

end LectNotes
